import Mathlib

/-!
Shallow embedding of the media-acquisition core of the `origami-media`
repository (Python), used to check the natural-language specification
against the code.

Conventions of the embedding:
* Byte strings (`bytes`) are modelled as `List Nat` (`Bytes`); only their
  length and identity matter to the claims.
* Python exceptions are modelled by the inductive `PyErr`; a fallible
  computation returns `Py α`, a pair of an `Except PyErr α` result and a
  trace of the externally observable effects (HTTP requests, subprocess
  invocations, file accesses, sleeps) the computation performed, in order.
  The trace instruments the effect points of the source; control flow is
  translated statement by statement.
* The outside world (HTTP responses, subprocess outcomes, ffmpeg results,
  mimetype sniffing) is an explicit oracle structure `Env`, so every
  embedded function is deterministic and executable.
* Python dictionaries with a fixed key set are modelled as structures;
  `d.get(k)` becomes an `Option` field, `d[k]` a lookup that throws
  `PyErr.keyError` on `none`.  Python truthiness is modelled explicitly
  (`none`, empty byte strings, empty strings and `0` are falsy).
-/

namespace OrigamiMedia

/-- Byte strings (`bytes`): a list of byte values. -/
abbrev Bytes := List Nat

/-- Python exceptions that the embedded code distinguishes.
`downloadSizeExceeded` embeds `DownloadSizeExceededError` of
`src/origami_media/services/ytdlp.py`; every other exception class only
matters through `except Exception`, and is carried with its message. -/
inductive PyErr where
  | downloadSizeExceeded (name : String) (totalSize maxFileSize : Nat)
  | runtimeError (msg : String)
  | valueError (msg : String)
  | keyError (key : String)
  | typeError (msg : String)
  | fileNotFoundError (msg : String)
  | queueFull
  | otherError (msg : String)
  deriving Repr, DecidableEq

/-- Externally observable effects, emitted at the source's effect points. -/
inductive Effect where
  | httpGet (url : String)
  | subprocessQuery (cmd : String)
  | subprocessDownload (cmd : String)
  | fileCheck (path : String)
  | fileRead (path : String)
  | fileWrite (path : String)
  | ffmpegNormalizeVideo
  | ffmpegNormalizeAudio
  | ffmpegProbe
  | ffmpegThumbnail
  | ffmpegLivestream (url : String)
  | sleep (seconds : Nat)
  deriving Repr, DecidableEq

/-- A fallible, effect-traced computation: the result together with the list
of effects performed (also on the error path, up to the raise point). -/
structure Py (α : Type) where
  out : Except PyErr α
  trace : List Effect
  deriving Repr

instance : Monad Py where
  pure a := ⟨Except.ok a, []⟩
  bind x f :=
    match x.out with
    | Except.error e => ⟨Except.error e, x.trace⟩
    | Except.ok a =>
        let y := f a
        ⟨y.out, x.trace ++ y.trace⟩

/-- Raise an exception (`raise e`). -/
def pyThrow {α : Type} (e : PyErr) : Py α := ⟨Except.error e, []⟩

/-- Record one observable effect. -/
def pyEmit (ev : Effect) : Py Unit := ⟨Except.ok (), [ev]⟩

/-- Python `try: x except Exception as e: h e` — every exception is caught. -/
def pyTryAll {α : Type} (x : Py α) (h : PyErr → Py α) : Py α :=
  match x.out with
  | Except.ok _ => x
  | Except.error e =>
      let y := h e
      ⟨y.out, x.trace ++ y.trace⟩

/-- Python `try: x except DownloadSizeExceededError: h` — only the distinct
size-limit error kind is caught, every other exception propagates. -/
def pyTryCatchSize {α : Type} (x : Py α) (h : Py α) : Py α :=
  match x.out with
  | Except.error (PyErr.downloadSizeExceeded _ _ _) =>
      ⟨h.out, x.trace ++ h.trace⟩
  | _ => x

/-- Lift a pure `Except` value into `Py` (no effects). -/
def pyOfExcept {α : Type} (e : Except PyErr α) : Py α := ⟨e, []⟩

/-! ### Python truthiness -/

/-- Truthiness of `Optional[bytes]`: `None` and `b""` are falsy. -/
def truthyBytes : Option Bytes → Bool
  | none => false
  | some b => decide (b ≠ [])

/-- Truthiness of an optional number: `None` and `0` are falsy. -/
def truthyNat : Option Nat → Bool
  | none => false
  | some n => n != 0

/-- Truthiness of an optional string: `None` and `""` are falsy. -/
def truthyStr : Option String → Bool
  | none => false
  | some s => decide (s ≠ "")

/-- Truthiness of an optional boolean (e.g. the `is_live` JSON field). -/
def truthyBool : Option Bool → Bool
  | none => false
  | some b => b

/-! ### Small Python string primitives -/

/-- Python `needle in haystack` substring test. -/
def pyIn (needle haystack : String) : Bool :=
  haystack.toList.tails.any fun t => needle.toList.isPrefixOf t

/-- Python string interpolation of an `Optional[str]`: `None` prints as
the literal text `None`. -/
def pyStrOfOpt : Option String → String
  | none => "None"
  | some s => s

/-- Split a character list at the first occurrence of `c` (the parts before
and after it), or `none` when `c` does not occur. -/
def splitFirstChar (c : Char) : List Char → Option (List Char × List Char)
  | [] => none
  | x :: xs =>
      if x = c then some ([], xs)
      else
        match splitFirstChar c xs with
        | none => none
        | some (a, b) => some (x :: a, b)

/-- The `netloc` component of `urllib.parse.urlparse`: present only when the
URL starts with `//` or with `scheme:` followed directly by `//`; it extends
up to the next `/`, `?` or `#`.  (Scheme-character validation is not
modelled; every URL appearing in a theorem below uses an ordinary scheme.) -/
def pyNetloc (url : String) : String :=
  let cs := url.toList
  let rest : Option (List Char) :=
    if cs.take 2 = ['/', '/'] then some (cs.drop 2)
    else
      match splitFirstChar ':' cs with
      | some (_, r) => if r.take 2 = ['/', '/'] then some (r.drop 2) else none
      | none => none
  match rest with
  | none => ""
  | some r =>
      String.mk (r.takeWhile fun c => !(c = '/' || c = '?' || c = '#'))

/-- Python `str.split(sep)` for a one-character separator (also the
behaviour of Lean's `String.splitOn`, re-implemented structurally so that
it evaluates inside the kernel). -/
def splitOnChar (c : Char) : List Char → List (List Char)
  | [] => [[]]
  | x :: xs =>
      if x = c then [] :: splitOnChar c xs
      else
        match splitOnChar c xs with
        | [] => [[x]]
        | y :: ys => (x :: y) :: ys

/-- Join character lists with a one-character separator (`sep.join(...)`). -/
def intercalateChar (c : Char) : List (List Char) → List Char
  | [] => []
  | [x] => x
  | x :: y :: ys => x ++ c :: intercalateChar c (y :: ys)

/-- `MediaProcessor._get_domain`: the normalized domain of a URL — the
netloc without the port, reduced to its last two DNS labels, lower-cased. -/
def get_domain (url : String) : String :=
  let host := (splitOnChar ':' (pyNetloc url).toList).headD []
  let labs := splitOnChar '.' host
  String.mk ((intercalateChar '.' (labs.drop (labs.length - 2))).map Char.toLower)

/-- Characters `shlex.quote` passes through unquoted: word characters and
`@ % + = : , .` plus slash and dash. -/
def shlexSafe (c : Char) : Bool :=
  c.isAlphanum || c = '_' || c = '@' || c = '%' || c = '+' || c = '=' ||
    c = ':' || c = ',' || c = '.' || c = '/' || c = '-'

/-- `shlex.quote`: return the string unchanged when every character is safe
and it is nonempty, otherwise wrap it in single quotes, escaping embedded
single quotes. -/
def shlex_quote (s : String) : String :=
  if s = "" then "''"
  else if s.toList.all shlexSafe then s
  else
    let q : Char := '\''
    let dq : Char := '"'
    let esc : List Char := s.toList.flatMap fun c =>
      if c = q then [q, dq, q, dq, q] else [c]
    String.mk (q :: esc ++ [q])

/-- Split a mimetype string at the first `/` (Python `mime.split("/", 1)`
unpacked into two names, which raises when there is no `/`). -/
def splitMimeSlash (mime : String) : Option (String × String) :=
  match splitFirstChar '/' mime.toList with
  | none => none
  | some (a, b) => some (String.mk a, String.mk b)

/-! ### Data model

Structures mirroring `src/origami_media/models/media_models.py` and the
dictionaries built by `src/origami_media/handler_utils/media_processor.py`.
Note the `MediaRequest` here carries the fields the processor actually
constructs and reads (`platform_config, url, uuid, ytdlp_metadata,
modifier`). -/

/-- `FfmpegMetadata` probe result (width, height, duration).  Durations are
floats in the source; no claim computes with them, so they are carried as
naturals. -/
structure FfmpegMetadata where
  width : Nat
  height : Nat
  duration : Nat
  deriving Repr, DecidableEq

/-- `MediaInfo` of `models/media_models.py`, with the field types the
processor actually stores. -/
structure MediaInfo where
  url : String
  id : Option String
  origin : String
  title : String
  uploader : String
  extractor : Option String
  ext : String
  mimetype : String
  duration : Nat
  width : Nat
  height : Nat
  size : Nat
  media_type : String
  thumbnail_url : Option String := none
  meta_size : Option Nat := none
  meta_duration : Option Nat := none
  deriving Repr, DecidableEq

/-- `MediaFile`: filename, metadata and the byte stream. -/
structure MediaFile where
  filename : String
  metadata : MediaInfo
  stream : Bytes
  deriving Repr, DecidableEq

/-- `Media`: the primary artifact and an optional thumbnail artifact. -/
structure Media where
  content : MediaFile
  thumbnail : Option MediaFile := none
  deriving Repr, DecidableEq

/-- The `yt-dlp` metadata JSON object, as consumed by the processor: every
key is optional, `d[k]` on a missing key raises.  The `error` field models
the `{"error": message}` dictionary `ytdlp_execute_query` returns on a
non-retryable failure. -/
structure MetaDict where
  url : Option String := none
  id : Option String := none
  duration : Option Nat := none
  filesize_approx : Option Nat := none
  is_live : Option Bool := none
  thumbnail : Option String := none
  selected_format : Option String := none
  webpage_url : Option String := none
  title : Option String := none
  uploader : Option String := none
  extractor : Option String := none
  error : Option String := none
  deriving Repr, DecidableEq

/-- Python `d["url"]` on the metadata dictionary. -/
def MetaDict.itemUrl (m : MetaDict) : Py String :=
  match m.url with
  | some s => pure s
  | none => pyThrow (PyErr.keyError "url")

/-- Python `d["webpage_url"]` on the metadata dictionary. -/
def MetaDict.itemWebpageUrl (m : MetaDict) : Py String :=
  match m.webpage_url with
  | some s => pure s
  | none => pyThrow (PyErr.keyError "webpage_url")

/-- Python `d["selected_format"]` on the metadata dictionary. -/
def MetaDict.itemSelectedFormat (m : MetaDict) : Py String :=
  match m.selected_format with
  | some s => pure s
  | none => pyThrow (PyErr.keyError "selected_format")

/-- One per-platform configuration dictionary (`platform_configs` entry). -/
structure PlatformConfig where
  name : String
  ytdlp : Bool
  ytdlp_formats : List String := []
  enable_proxy : Bool := false
  proxy : Option String := none
  enable_custom_user_agent : Bool := false
  custom_user_agent : Option String := none
  enable_cookies : Bool := false
  cookies_file : Option String := none
  deriving Repr, DecidableEq

/-- One entry of `config.platforms` (`{domain, config_key}`). -/
structure PlatformEntry where
  domain : String
  config_key : String
  deriving Repr, DecidableEq

/-- `config.file`.  `max_duration` and `max_audio_only_duration` are read
with default `0`; `max_in_memory_file_size` is read without a default and is
modelled as configured. -/
structure FileConfig where
  max_duration : Nat := 0
  max_audio_only_duration : Nat := 0
  max_in_memory_file_size : Nat
  deriving Repr, DecidableEq

/-- `config.ytdlp` flags used by the processor. -/
structure YtdlpConfig where
  enable_thumbnail_fallback_if_duration_or_size_exceeds : Bool
  deriving Repr, DecidableEq

/-- `config.ffmpeg` flags used by the processor. -/
structure FfmpegConfig where
  enable_livestream_previews : Bool
  enable_normalize_videos_to_mp4 : Bool
  enable_normalize_audio_to_mp3 : Bool
  enable_thumbnail_generation : Bool
  deriving Repr, DecidableEq

/-- `config.queue` values used by the dispatch layer. -/
structure QueueConfig where
  preprocess_worker_limit : Nat
  event_queue_capacity : Nat
  deriving Repr, DecidableEq

/-- The plugin configuration (the sections the embedded code reads). -/
structure Config where
  platforms : List PlatformEntry
  platform_configs : List (String × PlatformConfig)
  file : FileConfig
  ytdlp : YtdlpConfig
  ffmpeg : FfmpegConfig
  queue : QueueConfig
  deriving Repr, DecidableEq

/-- A `MediaRequest` as constructed by
`MediaProcessor.create_media_request` and consumed by `process_request`. -/
structure MediaRequest where
  platform_config : PlatformConfig
  url : String
  uuid : String
  ytdlp_metadata : Option MetaDict
  modifier : Option String
  deriving Repr, DecidableEq

/-- One generated yt-dlp command entry (`{"command": …, "selected_format": …}`). -/
structure CmdEntry where
  command : String
  selected_format : String
  deriving Repr, DecidableEq

/-! ### The outside-world oracle -/

/-- Outcome of one `http.get` call in `Native.client_download`:
either the transport raised, or a response with a status and the chunk
sequence of its body stream. -/
inductive HttpOutcome where
  | exn (msg : String)
  | resp (status : Nat) (chunks : List Bytes)
  deriving Repr, DecidableEq

/-- Outcome of one yt-dlp query subprocess (`ytdlp_execute_query` body):
process-level exception, nonzero exit with a stderr message, empty stdout,
unparsable JSON, a falsy (empty) JSON object, or a parsed metadata object. -/
inductive QueryOutcome where
  | exn (msg : String)
  | exitErr (stderrMsg : String)
  | emptyOutput
  | badJson (msg : String)
  | okEmptyDict
  | okDict (m : MetaDict)
  deriving Repr, DecidableEq

/-- Outcome of one yt-dlp download subprocess (`ytdlp_execute_download`
body): process-level exception, nonzero exit with a stderr message, or exit
code 0 together with the list of files found in the per-request directory
(each file its byte content). -/
inductive DownloadOutcome where
  | exn (msg : String)
  | exitErr (stderrMsg : String)
  | okFiles (files : List Bytes)
  deriving Repr, DecidableEq

/-- The deterministic oracle for everything outside the embedded code:
HTTP, subprocesses, the ffmpeg adapter, mimetype sniffing, UUID5 and the
cookie files.  `normalizeVideo`/`normalizeAudio` model the
`ffmpeg_controller.normalize_video`/`normalize_audio` calls (which may raise
— including the `AttributeError` the current `Ffmpeg` service would raise —
so their results are `Except`). -/
structure Env where
  httpGet : String → HttpOutcome
  runQuery : String → QueryOutcome
  runDownload : String → DownloadOutcome
  captureLivestream : String → Except PyErr Bytes
  normalizeVideo : Bytes → Except PyErr Bytes
  normalizeAudio : Bytes → Except PyErr Bytes
  extractMetadata : Bytes → Except PyErr FfmpegMetadata
  extractThumbnail : Bytes → String → Except PyErr Bytes
  mime : Bytes → String
  uuid5 : String → String
  uuid4 : String
  fileExists : String → Bool
  readFile : String → Except PyErr String
  writeFile : String → Option String → Bool

/-! ### `src/origami_media/services/native.py` — `Native.client_download` -/

/-- The chunked streaming loop of `client_download`: accumulate chunks,
tracking the running total; the instant the total exceeds a positive
`max_file_size` the source executes a bare `raise` (no active exception, so
Python raises `RuntimeError("No active exception to re-raise")`) and the
partial buffer is discarded. -/
def streamChunks (max_file_size : Nat) : List Bytes → Nat → Bytes → Except PyErr Bytes
  | [], _, acc => Except.ok acc
  | c :: cs, total, acc =>
      let total' := total + c.length
      if max_file_size > 0 && total' > max_file_size then
        Except.error (PyErr.runtimeError "No active exception to re-raise")
      else streamChunks max_file_size cs total' (acc ++ c)

/-- One turn of the retry loop of `client_download`, with `n` attempts
remaining.  A non-200 status `continue`s directly; any exception (transport
or the size-abort `raise`) is caught by `except Exception`, the loop sleeps
one second and moves to the next attempt; exhausting the loop executes the
final bare `raise`. -/
def clientDownloadGo (env : Env) (max_file_size : Nat) (url : String) : Nat → Py Bytes
  | 0 => pyThrow (PyErr.runtimeError "No active exception to re-raise")
  | n + 1 =>
      pyEmit (Effect.httpGet url) >>= fun _ =>
      match env.httpGet url with
      | HttpOutcome.exn _ =>
          pyEmit (Effect.sleep 1) >>= fun _ => clientDownloadGo env max_file_size url n
      | HttpOutcome.resp status chunks =>
          if status != 200 then clientDownloadGo env max_file_size url n
          else
            match streamChunks max_file_size chunks 0 [] with
            | Except.ok b => pure b
            | Except.error _ =>
                pyEmit (Effect.sleep 1) >>= fun _ =>
                  clientDownloadGo env max_file_size url n

/-- `Native.client_download`: stream an HTTP GET into memory under the
in-memory size cap.  The source hardcodes `max_retries = 1`, so the retry
loop runs at most one attempt.  The computed proxy and user-agent headers do
not influence the modelled oracle. -/
def client_download (env : Env) (config : Config) (_platform_config : PlatformConfig)
    (url : String) : Py Bytes :=
  let max_retries := 1
  let max_file_size := config.file.max_in_memory_file_size
  clientDownloadGo env max_file_size url max_retries

/-! ### `src/origami_media/services/ytdlp.py` — the yt-dlp adapter -/

/-- `Ytdlp.create_ytdlp_commands`: build one shell-safe command per
(format specifier × mode), conditionally appending proxy, user-agent and
cookie flags.  Raises `ValueError` on a bad `command_type`, on a falsy
format list, and (in query mode only) on a falsy format entry. -/
def create_ytdlp_commands (url command_type : String) (platform_config : PlatformConfig)
    (uuid : String) (modifier : Option String) : Except PyErr (List CmdEntry) :=
  if command_type ≠ "query" ∧ command_type ≠ "download" then
    Except.error (PyErr.valueError "command_type must be 'query' or 'download'")
  else
    let formats := platform_config.ytdlp_formats
    if formats.isEmpty then
      Except.error (PyErr.valueError ("No formats set for " ++ platform_config.name))
    else
      let escaped_url := shlex_quote url
      let query_flags := "-s -j"
      let output_arg := "/tmp/" ++ uuid
      let proxy :=
        if platform_config.enable_proxy then
          "--proxy '" ++ pyStrOfOpt platform_config.proxy ++ "'"
        else ""
      let user_agent :=
        if platform_config.enable_custom_user_agent then
          "--user-agent '" ++ pyStrOfOpt platform_config.custom_user_agent ++ "'"
        else ""
      let cookies :=
        if platform_config.enable_cookies then
          "--cookies '/tmp/" ++ platform_config.name ++ "-cookies.txt'"
        else ""
      if command_type = "query" then
        if modifier = some "force_audio_only" then
          Except.ok [⟨"yt-dlp -q --no-warnings " ++ query_flags ++ " " ++ cookies ++ " " ++
            user_agent ++ " " ++ proxy ++ " -x " ++ escaped_url, "audio_only"⟩]
        else
          formats.mapM fun format_entry =>
            if format_entry = "" then
              Except.error (PyErr.valueError ("Format missing for " ++ platform_config.name))
            else
              Except.ok (⟨"yt-dlp -q --no-warnings " ++ query_flags ++ " " ++ cookies ++ " " ++
                user_agent ++ " " ++ proxy ++ " -f '" ++ format_entry ++ "' " ++ escaped_url,
                format_entry⟩ : CmdEntry)
      else
        if modifier = some "force_audio_only" then
          let output_option := "-P '" ++ output_arg ++ "'"
          Except.ok [⟨"yt-dlp -q --no-warnings " ++ cookies ++ " " ++ user_agent ++ " " ++
            proxy ++ " -x --audio-format mp3 --embed-thumbnail " ++ output_option ++ " " ++
            escaped_url, "audio_only"⟩]
        else
          Except.ok (formats.map fun format_entry =>
            let output_option := "-P '" ++ output_arg ++ "'"
            (⟨"yt-dlp -q --no-warnings " ++ cookies ++ " " ++ user_agent ++ " " ++ proxy ++
              " -f '" ++ format_entry ++ "' " ++ output_option ++ " " ++ escaped_url,
              format_entry⟩ : CmdEntry))

/-- `Ytdlp.ytdlp_execute_query`: run the query commands in order.  A nonzero
exit whose stderr mentions `403` is non-retryable and returns the dictionary
`{"error": message}`; empty output, unparsable or falsy JSON and any other
failure advance to the next command; a parsed object is returned with
`selected_format` recorded.  Exhausting the list raises `RuntimeError`. -/
def ytdlp_execute_query (env : Env) : List CmdEntry → Py MetaDict
  | [] => pyThrow (PyErr.runtimeError "No valid yt-dlp query command succeeded.")
  | c :: rest =>
      if c.command = "" then ytdlp_execute_query env rest
      else
        pyEmit (Effect.subprocessQuery c.command) >>= fun _ =>
        match env.runQuery c.command with
        | QueryOutcome.exn _ => ytdlp_execute_query env rest
        | QueryOutcome.exitErr stderrMsg =>
            if pyIn "403" stderrMsg then pure { error := some stderrMsg }
            else ytdlp_execute_query env rest
        | QueryOutcome.emptyOutput => ytdlp_execute_query env rest
        | QueryOutcome.badJson _ => ytdlp_execute_query env rest
        | QueryOutcome.okEmptyDict => ytdlp_execute_query env rest
        | QueryOutcome.okDict m =>
            pure { m with selected_format := some c.selected_format }

/-- The `RuntimeError` raised after the download loop: its message depends
on whether some earlier command failed with a retryable error
(`last_exception` set). -/
def ytdlpDownloadFinalError : Option PyErr → PyErr
  | some _ =>
      PyErr.runtimeError "No valid yt-dlp download command succeeded. See logs for details."
  | none => PyErr.runtimeError "No valid yt-dlp download command succeeded."

/-- The command loop of `Ytdlp.ytdlp_execute_download`, carrying
`last_exception`.  A nonzero exit whose stderr mentions `403` `break`s to
the post-loop raise; any other failure (nonzero exit, no file found,
multiple files found, process-level exception) is caught, recorded in
`last_exception` and advances to the next command; exit code 0 with exactly
one file in the per-request directory returns that file's bytes.  The
temp-directory cleanup and process-kill of the `finally` block touch only
per-request state and are not traced.  Note that no size check of any kind
occurs in this loop. -/
def ytdlpExecuteDownloadGo (env : Env) : List CmdEntry → Option PyErr → Py Bytes
  | [], lastExc => pyThrow (ytdlpDownloadFinalError lastExc)
  | c :: rest, lastExc =>
      if c.command = "" then ytdlpExecuteDownloadGo env rest lastExc
      else
        pyEmit (Effect.subprocessDownload c.command) >>= fun _ =>
        match env.runDownload c.command with
        | DownloadOutcome.exn msg =>
            ytdlpExecuteDownloadGo env rest (some (PyErr.otherError msg))
        | DownloadOutcome.exitErr stderrMsg =>
            if pyIn "403" stderrMsg then pyThrow (ytdlpDownloadFinalError lastExc)
            else
              ytdlpExecuteDownloadGo env rest
                (some (PyErr.otherError "Download failed with nonzero return code."))
        | DownloadOutcome.okFiles files =>
            match files with
            | [] =>
                ytdlpExecuteDownloadGo env rest
                  (some (PyErr.fileNotFoundError "No files found in the download directory"))
            | [b] => pure b
            | _ =>
                ytdlpExecuteDownloadGo env rest
                  (some (PyErr.runtimeError "Multiple files found in the download directory"))

/-- `Ytdlp.ytdlp_execute_download`: try the download commands in order until
one succeeds, a non-retryable error stops the list, or the list is
exhausted. -/
def ytdlp_execute_download (env : Env) (commands : List CmdEntry) (_uuid : String) :
    Py Bytes :=
  ytdlpExecuteDownloadGo env commands none

/-! ### `src/origami_media/handler_utils/media_processor.py` — `MediaProcessor` -/

/-- `MediaProcessor._get_platform_config` (pure apart from logging): map the
normalized domain to its `config_key` (the reserved key `query` when the
request is query-derived), then look the key up in `platform_configs`.  A
missing entry and a configured-but-empty dictionary are observationally the
same downstream and are both modelled by a failing lookup. -/
def get_platform_config (config : Config) (domain : String) (query_derived : Bool) :
    Option PlatformConfig :=
  let config_key : Option String :=
    if query_derived then some "query"
    else
      match config.platforms.find? (fun p => p.domain = domain) with
      | some p => if p.config_key = "" then none else some p.config_key
      | none => none
  match config_key with
  | none => none
  | some k => config.platform_configs.lookup k

/-- `MediaProcessor._handle_cookies`: when cookies are enabled, compare the
cookie file under `/tmp` with the configured cookie string and (re)write it
when stale or missing; every exception is caught and logged. -/
def handle_cookies (env : Env) (platform_config : PlatformConfig) : Py Unit :=
  if !platform_config.enable_cookies then pure ()
  else
    let current := platform_config.cookies_file
    let path := "/tmp/" ++ platform_config.name ++ "-cookies.txt"
    pyTryAll
      (pyEmit (Effect.fileCheck path) >>= fun _ =>
        if env.fileExists path then
          pyEmit (Effect.fileRead path) >>= fun _ =>
          match env.readFile path with
          | Except.error e => pyThrow e
          | Except.ok prev =>
              if some prev ≠ current then
                pyEmit (Effect.fileWrite path) >>= fun _ =>
                pure ()
              else pure ()
        else
          pyEmit (Effect.fileWrite path) >>= fun _ =>
          pure ())
      (fun _ => pure ())

/-- `MediaProcessor._query_advanced_media`: build the query commands and run
them; any exception is caught and turned into `None`. -/
def query_advanced_media (env : Env) (url : String) (platform_config : PlatformConfig)
    (uuid : String) (modifier : Option String) : Py (Option MetaDict) :=
  pyTryAll
    (pyOfExcept (create_ytdlp_commands url "query" platform_config uuid modifier) >>=
      fun query_commands =>
        ytdlp_execute_query env query_commands >>= fun m => pure (some m))
    (fun _ => pure none)

/-- The `Union[Dict, "invalid", "N/A"]` result of
`MediaProcessor._get_media_request_metadata`. -/
inductive MetadataResult where
  | dict (m : MetaDict)
  | invalid
  | nA
  deriving Repr, DecidableEq

/-- `MediaProcessor._get_media_request_metadata`: query yt-dlp when the
profile requires it (`invalid` on a falsy result), `N/A` otherwise. -/
def get_media_request_metadata (env : Env) (platform_config : PlatformConfig)
    (url uuid : String) (modifier : Option String) : Py MetadataResult :=
  if platform_config.ytdlp then
    query_advanced_media env url platform_config uuid modifier >>= fun om =>
      match om with
      | none => pure MetadataResult.invalid
      | some m => pure (MetadataResult.dict m)
  else pure MetadataResult.nA

/-- `MediaProcessor.create_media_request`: normalize the domain, look up the
platform profile (`None` aborts before anything else runs), handle cookies,
fetch metadata when required and assemble the `MediaRequest`.  The random
`uuid.uuid4()` request id is the oracle's `uuid4`. -/
def create_media_request (env : Env) (config : Config) (url : String)
    (modifier : Option String) (query_derived : Bool) : Py (Option MediaRequest) :=
  let domain := get_domain url
  match get_platform_config config domain query_derived with
  | none => pure none
  | some platform_config =>
      handle_cookies env platform_config >>= fun _ =>
      let id := env.uuid4
      get_media_request_metadata env platform_config url id modifier >>= fun r =>
        match r with
        | MetadataResult.invalid => pure none
        | MetadataResult.nA =>
            pure (some ⟨platform_config, url, id, none, modifier⟩)
        | MetadataResult.dict m =>
            pure (some ⟨platform_config, url, id, some m, modifier⟩)

/-- `MediaProcessor._download_simple_media`: `client_download` with every
exception caught and turned into `None`. -/
def download_simple_media (env : Env) (config : Config) (url : String)
    (platform_config : PlatformConfig) : Py (Option Bytes) :=
  pyTryAll
    (client_download env config platform_config url >>= fun b => pure (some b))
    (fun _ => pure none)

/-- `MediaProcessor._attempt_thumbnail_fallback`: `None` when the metadata
has no (truthy) thumbnail URL, else fetch the thumbnail bytes. -/
def attempt_thumbnail_fallback (env : Env) (config : Config) (ytdlp_metadata : MetaDict)
    (platform_config : PlatformConfig) : Py (Option Bytes) :=
  if !truthyStr ytdlp_metadata.thumbnail then pure none
  else
    download_simple_media env config (ytdlp_metadata.thumbnail.getD "") platform_config

/-- `MediaProcessor._get_mimetype`: sniff the mimetype and split it as
`type_, subtype = mime.split("/", 1)`, returning `(mime, subtype, type_)`;
a mimetype without a slash makes the unpacking raise. -/
def get_mimetype (env : Env) (b : Bytes) : Py (String × String × String) :=
  let mime := env.mime b
  match splitMimeSlash mime with
  | none => pyThrow (PyErr.valueError "not enough values to unpack")
  | some (type_, subtype) => pure (mime, subtype, type_)

/-- `MediaProcessor._post_process`: sniff the type; for `video` (always) or
`application` (unless forced audio-only) normalize the video container when
enabled; for non-downloader `audio` normalize the audio container when
enabled; then probe the final metadata.  (The source's condition
`type_ == "video" or type_ == "application" and modifier != "force_audio_only"`
parses as `video ∨ (application ∧ ¬forced)`.)  Any exception yields `None`. -/
def post_process (env : Env) (config : Config) (data : Bytes)
    (platform_config : Option PlatformConfig) (modifier : Option String) :
    Py (Option (Bytes × FfmpegMetadata)) :=
  pyTryAll
    (get_mimetype env data >>= fun res =>
      let type_ := res.2.2
      (match platform_config with
        | some pc =>
            if type_ = "video" ∨ (type_ = "application" ∧ modifier ≠ some "force_audio_only") then
              if config.ffmpeg.enable_normalize_videos_to_mp4 then
                pyEmit Effect.ffmpegNormalizeVideo >>= fun _ =>
                  pyOfExcept (env.normalizeVideo data)
              else pure data
            else if type_ = "audio" ∧ !pc.ytdlp then
              if config.ffmpeg.enable_normalize_audio_to_mp3 then
                pyEmit Effect.ffmpegNormalizeAudio >>= fun _ =>
                  pyOfExcept (env.normalizeAudio data)
              else pure data
            else pure data
        | none => pure data) >>= fun processed_data =>
      pyEmit Effect.ffmpegProbe >>= fun _ =>
      pyOfExcept (env.extractMetadata processed_data) >>= fun metadata =>
      pure (some (processed_data, metadata)))
    (fun _ => pure none)

/-- The thumbnail-fallback-or-fail block that `_download_advanced_media`
repeats verbatim for the duration gate, the size gate and the caught
`DownloadSizeExceededError`: fail (`(None, False)`) when the fallback is
disabled, else substitute the thumbnail and flag the fallback. -/
def advFallbackOrFail (env : Env) (config : Config) (ytdlp_metadata : MetaDict)
    (platform_config : PlatformConfig) : Py (Option Bytes × Bool) :=
  if !config.ytdlp.enable_thumbnail_fallback_if_duration_or_size_exceeds then
    pure (none, false)
  else
    attempt_thumbnail_fallback env config ytdlp_metadata platform_config >>= fun data =>
      pure (data, true)

/-- Lines 308–342 of `_download_advanced_media`: build the download
commands, promote the command whose format matches the metadata-query's
`selected_format` to the front, execute the list, and on
`DownloadSizeExceededError` (only) apply the fallback-or-fail block. -/
def advDownloadPhase (env : Env) (config : Config) (ytdlp_metadata : MetaDict)
    (platform_config : PlatformConfig) (uuid : String) (modifier : Option String) :
    Py (Option Bytes × Bool) :=
  pyTryCatchSize
    (ytdlp_metadata.itemSelectedFormat >>= fun query_format =>
      ytdlp_metadata.itemWebpageUrl >>= fun wurl =>
      pyOfExcept (create_ytdlp_commands wurl "download" platform_config uuid modifier) >>=
        fun commands0 =>
          let commands :=
            match commands0.find? (fun cmd => cmd.selected_format = query_format) with
            | none => commands0
            | some priority_command => priority_command :: commands0.erase priority_command
          ytdlp_execute_download env commands uuid >>= fun data =>
          pure (some data, false))
    (advFallbackOrFail env config ytdlp_metadata platform_config)

/-- `MediaProcessor._download_advanced_media`: live streams are captured
(when enabled) and never duration-gated; otherwise the duration gate (the
audio-only ceiling under `force_audio_only`, else the general ceiling) and
then the declared-size gate each trigger the fallback-or-fail block, and
only then is the actual download attempted.  Any uncaught exception yields
`(None, False)`. -/
def download_advanced_media (env : Env) (config : Config) (ytdlp_metadata : MetaDict)
    (platform_config : PlatformConfig) (uuid : String) (modifier : Option String) :
    Py (Option Bytes × Bool) :=
  pyTryAll
    (if truthyBool ytdlp_metadata.is_live then
        if !config.ffmpeg.enable_livestream_previews then pure (none, false)
        else
          ytdlp_metadata.itemUrl >>= fun stream_url =>
          pyEmit (Effect.ffmpegLivestream stream_url) >>= fun _ =>
          pyOfExcept (env.captureLivestream stream_url) >>= fun data =>
          pure (some data, false)
      else
        let max_duration :=
          if modifier = some "force_audio_only" then config.file.max_audio_only_duration
          else config.file.max_duration
        if truthyNat ytdlp_metadata.duration ∧ ytdlp_metadata.duration.getD 0 > max_duration then
          advFallbackOrFail env config ytdlp_metadata platform_config
        else
          let max_size := config.file.max_in_memory_file_size
          if truthyNat ytdlp_metadata.filesize_approx ∧
              ytdlp_metadata.filesize_approx.getD 0 > max_size then
            advFallbackOrFail env config ytdlp_metadata platform_config
          else advDownloadPhase env config ytdlp_metadata platform_config uuid modifier)
    (fun _ => pure (none, false))

/-! #### Filename derivation -/

/-- The whitespace class of the regex `\s` over ASCII text (the string fed
to the whitespace substitution is ASCII-only after the normalize step). -/
def pyWhitespace (c : Char) : Bool :=
  c == ' ' || c == '\t' || c == '\n' || c == '\x0b' || c == '\x0c' || c == '\r'

/-- The character class replaced by `_` in `_generate_filename`:
angle brackets, colon, double quote, slash, backslash, pipe, question mark,
asterisk, control characters, straight and curly quotes. -/
def invalidFilenameChar (c : Char) : Bool :=
  c == '<' || c == '>' || c == ':' || c == '"' || c == '/' || c == '\\' ||
    c == '|' || c == '?' || c == '*' || decide (c.toNat < 32) ||
    c == '\'' || c == '’' || c == '“' || c == '”'

/-- The Unicode-normalize-toward-ASCII step
(`NFKD`, `encode("ASCII", "ignore")`, decode): on ASCII input this is the
identity, and non-ASCII characters are dropped.  (NFKD decomposition of
non-ASCII characters is not modelled; every concrete input evaluated in a
theorem below is ASCII.) -/
def asciiEncodeIgnore (l : List Char) : List Char :=
  l.filter fun c => decide (c.toNat < 128)

/-- Collapse every maximal run of characters satisfying `p` into one copy of
`rep` (the effect of `re.sub` with the patterns `\s+`, `__+` and `_+` used
in `_generate_filename`; note `__+` leaves single underscores alone, which
coincides with run-collapsing). -/
def collapseRuns (p : Char → Bool) (rep : Char) : List Char → Bool → List Char
  | [], _ => []
  | c :: cs, inRun =>
      if p c then
        if inRun then collapseRuns p rep cs true
        else rep :: collapseRuns p rep cs true
      else c :: collapseRuns p rep cs false

/-- Python `str.strip("_.")`: drop leading and trailing underscores and
dots. -/
def stripUndDot (l : List Char) : List Char :=
  let p := fun c => c == '_' || c == '.'
  ((l.dropWhile p).reverse.dropWhile p).reverse

/-- The metadata dictionaries passed to `_generate_filename` and
`_create_media_object` (built by `_process_simple_media`,
`_process_advanced_media` and `_process_thumbnail_media`).  `extractor` and
`id` are present keys whose value may be `None` (so the `.get` defaults of
`_generate_filename` never fire, and `None` prints as `None`). -/
structure OtherMeta where
  id : Option String
  extractor : Option String
  uploader : String
  title : String
  url : String
  origin : String
  thumbnail : Option String := none
  meta_duration : Option Nat := none
  meta_size : Option Nat := none
  deriving Repr, DecidableEq

/-- `MediaProcessor._generate_filename`: build
`{title}-{uploader}-{extractor}-{id}`, normalize toward ASCII, replace
invalid characters and whitespace runs with underscores, collapse repeated
underscores, strip leading/trailing underscores and dots, truncate to 255
characters, and collapse underscores once more. -/
def generate_filename (metadata : OtherMeta) : String :=
  let filename := metadata.title ++ "-" ++ metadata.uploader ++ "-" ++
    pyStrOfOpt metadata.extractor ++ "-" ++ pyStrOfOpt metadata.id
  let l := asciiEncodeIgnore filename.toList
  let l := l.map fun c => if invalidFilenameChar c then '_' else c
  let l := collapseRuns pyWhitespace '_' l false
  let l := collapseRuns (fun c => c == '_') '_' l false
  let l := (stripUndDot l).take 255
  let l := collapseRuns (fun c => c == '_') '_' l false
  String.mk l

/-- `MediaProcessor._generate_media_filename`: the sanitized base plus a dot
and the extension. -/
def generate_media_filename (metadata : OtherMeta) (extension : String) : String :=
  generate_filename metadata ++ "." ++ extension

/-- `MediaProcessor._create_media_object`: sniff the stream's mimetype,
override it for `thumbnail`-origin artifacts (always `image/jpeg`) and for
audio (always `audio/mp3`, type unchanged), and assemble the `MediaFile`
whose `size` is the stream's length. -/
def create_media_object (env : Env) (stream : Bytes) (other_metadata : OtherMeta)
    (file_metadata : FfmpegMetadata) : Py MediaFile :=
  get_mimetype env stream >>= fun res =>
  let mt0 := res.1
  let ext0 := res.2.1
  let type0 := res.2.2
  let t1 : String × String × String :=
    if other_metadata.origin = "thumbnail" then ("image/jpeg", "jpeg", "image")
    else (mt0, ext0, type0)
  let t2 : String × String :=
    if t1.2.2 = "audio" then ("audio/mp3", "mp3") else (t1.1, t1.2.1)
  pure
    { filename := generate_media_filename other_metadata t2.2
      stream := stream
      metadata :=
        { url := other_metadata.url
          id := other_metadata.id
          origin := other_metadata.origin
          title := other_metadata.title
          uploader := other_metadata.uploader
          extractor := other_metadata.extractor
          ext := t2.2
          mimetype := t2.1
          duration := file_metadata.duration
          width := file_metadata.width
          height := file_metadata.height
          size := stream.length
          media_type := t1.2.2
          thumbnail_url := other_metadata.thumbnail
          meta_size := other_metadata.meta_size
          meta_duration := other_metadata.meta_duration } }

/-- `MediaProcessor._process_simple_media`: package a direct fetch with
origin `simple`, a URL-derived id and the host as extractor. -/
def process_simple_media (env : Env) (data : Bytes) (url : String)
    (ffmpeg_metadata : FfmpegMetadata) : Py MediaFile :=
  let metadata : OtherMeta :=
    { id := some (env.uuid5 url)
      extractor := some (String.mk ((splitOnChar ':' (pyNetloc url).toList).headD []))
      uploader := "unknown_uploader"
      title := "unknown_title"
      url := url
      origin := "simple" }
  create_media_object env data metadata ffmpeg_metadata

/-- `MediaProcessor._process_advanced_media`: package a downloader-mediated
artifact; under thumbnail fallback the origin becomes
`advanced-thumbnail-fallback`, the declared duration/size move into
`meta_duration`/`meta_size`, and the thumbnail URL is cleared. -/
def process_advanced_media (env : Env) (data : Bytes) (ytdlp_metadata : MetaDict)
    (ffmpeg_metadata : FfmpegMetadata) (is_thumbnail_fallback : Bool) : Py MediaFile :=
  ytdlp_metadata.itemWebpageUrl >>= fun wurl =>
  let base : OtherMeta :=
    { id := ytdlp_metadata.id
      extractor := ytdlp_metadata.extractor
      uploader := ytdlp_metadata.uploader.getD "unknown_uploader"
      title := ytdlp_metadata.title.getD "unknown_title"
      url := wurl
      origin := "advanced"
      thumbnail := ytdlp_metadata.thumbnail }
  let mutated :=
    if is_thumbnail_fallback then
      { base with
        meta_duration := ytdlp_metadata.duration
        meta_size := ytdlp_metadata.filesize_approx
        origin := "advanced-thumbnail-fallback"
        thumbnail := none }
    else base
  create_media_object env data mutated ffmpeg_metadata

/-- `MediaProcessor._process_thumbnail_media`: package a derived thumbnail
with origin `thumbnail`. -/
def process_thumbnail_media (env : Env) (data : Bytes) (url : String)
    (ffmpeg_metadata : FfmpegMetadata) : Py MediaFile :=
  let metadata : OtherMeta :=
    { id := some (env.uuid5 url)
      extractor := some (String.mk ((splitOnChar ':' (pyNetloc url).toList).headD []))
      uploader := "unknown_uploader"
      title := "unknown_title"
      url := url
      origin := "thumbnail" }
  create_media_object env data metadata ffmpeg_metadata

/-- `MediaProcessor._primary_media_controller`: direct fetch for profiles
not requiring the downloader, else the advanced download; in both branches
post-process and package, returning `None` on any falsy intermediate. -/
def primary_media_controller (env : Env) (config : Config) (url : String)
    (platform_config : PlatformConfig) (ytdlp_metadata : Option MetaDict)
    (uuid : String) (modifier : Option String) : Py (Option MediaFile) :=
  if !platform_config.ytdlp then
    download_simple_media env config url platform_config >>= fun data =>
      if truthyBytes data then
        post_process env config (data.getD []) (some platform_config) modifier >>=
          fun result =>
            match result with
            | some (data', metadata) =>
                process_simple_media env data' url metadata >>= fun mf => pure (some mf)
            | none => pure none
      else pure none
  else
    match ytdlp_metadata with
    | some md =>
        download_advanced_media env config md platform_config uuid modifier >>= fun dl =>
          if truthyBytes dl.1 then
            post_process env config (dl.1.getD []) (some platform_config) modifier >>=
              fun result =>
                match result with
                | some (data', metadata) =>
                    process_advanced_media env data' md metadata dl.2 >>= fun mf =>
                      pure (some mf)
                | none => pure none
          else pure none
    | none => pure none

/-- `MediaProcessor._thumbnail_media_controller`: for an `advanced` primary
with a thumbnail URL, fetch and package it (failures fall through); under
`force_audio_only` no thumbnail; for a video primary with generation enabled
extract one frame — note this ffmpeg call is *not* wrapped in a
try/except. -/
def thumbnail_media_controller (env : Env) (config : Config)
    (primary_media_object : MediaFile) (platform_config : PlatformConfig)
    (modifier : Option String) : Py (Option MediaFile) :=
  (if primary_media_object.metadata.origin = "advanced" ∧
      truthyStr primary_media_object.metadata.thumbnail_url then
      download_simple_media env config
          (primary_media_object.metadata.thumbnail_url.getD "") platform_config >>=
        fun data =>
          if truthyBytes data then
            post_process env config (data.getD []) none none >>= fun result =>
              match result with
              | some (_, metadata) =>
                  process_thumbnail_media env (data.getD [])
                      primary_media_object.metadata.url metadata >>= fun mf =>
                    pure (some mf)
              | none => pure none
          else pure none
    else pure (none : Option MediaFile)) >>= fun r1 =>
  match r1 with
  | some mf => pure (some mf)
  | none =>
      if modifier = some "force_audio_only" then pure none
      else
        if primary_media_object.metadata.media_type = "video" ∧
            config.ffmpeg.enable_thumbnail_generation then
          pyEmit Effect.ffmpegThumbnail >>= fun _ =>
          pyOfExcept (env.extractThumbnail primary_media_object.stream
              (if primary_media_object.metadata.ext = "" then "mp4"
                else primary_media_object.metadata.ext)) >>= fun data =>
          if truthyBytes (some data) then
            post_process env config data none none >>= fun result =>
              match result with
              | some (_, metadata) =>
                  process_thumbnail_media env data
                      primary_media_object.metadata.url metadata >>= fun mf =>
                    pure (some mf)
              | none => pure none
          else pure none
        else pure none

/-- `MediaProcessor.process_request`: produce the primary artifact (`None`
is terminal), then attempt the thumbnail and return both. -/
def process_request (env : Env) (config : Config) (request : MediaRequest) :
    Py (Option Media) :=
  primary_media_controller env config request.url request.platform_config
      request.ytdlp_metadata request.uuid request.modifier >>= fun primary =>
    match primary with
    | none => pure none
    | some primary_file_object =>
        thumbnail_media_controller env config primary_file_object
            request.platform_config request.modifier >>= fun thumbnail_file_object =>
          pure (some ⟨primary_file_object, thumbnail_file_object⟩)

/-! ### `src/origami_media/workers/preprocess_worker.py` — `PreprocessWorker` -/

/-- A `CommandPacket`, reduced to the only field the worker reads
(`packet.event.event_id`). -/
structure CommandPacket where
  eventId : String
  deriving Repr, DecidableEq

/-- Outcome of `command_handler.handle_preprocess`: a returned value with
its truthiness, or a raised exception. -/
inductive HandleOutcome where
  | ok (truthy : Bool)
  | exn (msg : String)
  deriving Repr, DecidableEq

/-- The state shared across preprocess invocations: the counted set of
event ids and the bounded dispatch queue. -/
structure WorkerState where
  preprocess_tasks : Finset String
  event_queue : List CommandPacket
  deriving DecidableEq

/-- `PreprocessWorker._is_allowed`: allowed unless the set's size exceeds
`preprocess_worker_limit` (checked after the caller already added its id). -/
def is_allowed (queueConfig : QueueConfig) (preprocess_tasks : Finset String) : Bool :=
  !(preprocess_tasks.card > queueConfig.preprocess_worker_limit)

/-- `asyncio.Queue.put_nowait` raises `QueueFull` exactly when the queue has
a positive capacity and is at (or beyond) it. -/
def putNowaitFull (queueConfig : QueueConfig) (queue : List CommandPacket) : Bool :=
  decide (0 < queueConfig.event_queue_capacity) &&
    decide (queue.length ≥ queueConfig.event_queue_capacity)

/-- `PreprocessWorker.preprocess`: add the packet's event id to the counted
set; when `_is_allowed` rejects, `return` — *before* the `try`, so the
`finally: discard` does not run and the id stays in the set.  Otherwise run
the handler; a truthy result is enqueued with `put_nowait` (`QueueFull` is
caught and the packet dropped), any other exception is caught, and the
`finally` block discards the id. -/
def preprocess (handle : CommandPacket → HandleOutcome) (queueConfig : QueueConfig)
    (st : WorkerState) (packet : CommandPacket) : WorkerState :=
  let tasks1 := insert packet.eventId st.preprocess_tasks
  if !is_allowed queueConfig tasks1 then
    { st with preprocess_tasks := tasks1 }
  else
    let queue' :=
      match handle packet with
      | HandleOutcome.ok true =>
          if putNowaitFull queueConfig st.event_queue then st.event_queue
          else st.event_queue ++ [packet]
      | HandleOutcome.ok false => st.event_queue
      | HandleOutcome.exn _ => st.event_queue
    { preprocess_tasks := tasks1.erase packet.eventId, event_queue := queue' }

/-! ### Spec-side definitions

These two definitions are written from the words of the specification (not
from the source) and are compared against the embedded code. -/

/-- The character class `[A-Za-z0-9_.-]` of the spec's filename property. -/
def safeFilenameChar (c : Char) : Bool :=
  (('A' ≤ c && c ≤ 'Z') || ('a' ≤ c && c ≤ 'z') || ('0' ≤ c && c ≤ '9') ||
    c == '_' || c == '.' || c == '-')

/-- The spec's regular expression `[A-Za-z0-9_.-]{1,255}` as a predicate on
whole strings. -/
def matchesSafeRe (s : String) : Bool :=
  s.toList.all safeFilenameChar && decide (1 ≤ s.length) && decide (s.length ≤ 255)

/-- Spec-side characterization of which download commands are executed: the
(nonempty-command) list is walked in order and truncated just after the
first command that stops it — a success with exactly one downloaded file,
or a nonzero exit whose stderr holds `403`. -/
def downloadStops (env : Env) (c : CmdEntry) : Bool :=
  match env.runDownload c.command with
  | DownloadOutcome.exitErr stderrMsg => pyIn "403" stderrMsg
  | DownloadOutcome.okFiles [_] => true
  | _ => false

/-- Take elements up to and including the first one satisfying `p`. -/
def takeThrough {α : Type} (p : α → Bool) : List α → List α
  | [] => []
  | x :: xs => if p x then [x] else x :: takeThrough p xs

/-- The download commands the spec says get executed, in order. -/
def specExecutedDownloads (env : Env) (commands : List CmdEntry) : List String :=
  (takeThrough (downloadStops env) (commands.filter fun c => c.command ≠ "")).map
    fun c => c.command

/-- Project the download-subprocess invocations out of an effect trace. -/
def downloadInvocations (trace : List Effect) : List String :=
  trace.filterMap fun e =>
    match e with
    | Effect.subprocessDownload cmd => some cmd
    | _ => none

/-- Count the HTTP GET effects of a trace. -/
def httpGetCount (trace : List Effect) : Nat :=
  trace.countP fun e =>
    match e with
    | Effect.httpGet _ => true
    | _ => false

/-- A base oracle for concrete evaluations: every external call fails or is
inert.  Individual theorems override exactly the fields their scenario
needs. -/
def baseEnv : Env where
  httpGet := fun _ => HttpOutcome.exn "unreachable"
  runQuery := fun _ => QueryOutcome.exn "unreachable"
  runDownload := fun _ => DownloadOutcome.exn "unreachable"
  captureLivestream := fun _ => Except.error (PyErr.otherError "unreachable")
  normalizeVideo := fun b => Except.ok b
  normalizeAudio := fun b => Except.ok b
  extractMetadata := fun _ => Except.ok ⟨640, 480, 10⟩
  extractThumbnail := fun _ _ => Except.error (PyErr.otherError "unreachable")
  mime := fun _ => "video/mp4"
  uuid5 := fun _ => "e8b5a51d-11c8-5f83-b1ea-0000aaaa0000"
  uuid4 := "123e4567-e89b-12d3-a456-426614174000"
  fileExists := fun _ => false
  readFile := fun _ => Except.error (PyErr.fileNotFoundError "missing")
  writeFile := fun _ _ => true

/-- A base configuration for concrete evaluations. -/
def baseConfig : Config where
  platforms := [⟨"youtube.com", "youtube"⟩]
  platform_configs := [("youtube", { name := "youtube", ytdlp := true })]
  file := { max_in_memory_file_size := 100 }
  ytdlp := ⟨true⟩
  ffmpeg := ⟨true, true, true, true⟩
  queue := ⟨10, 10⟩

/-- Evaluate a pipeline result to the safety of the produced primary
filename: `some b` when a `Media` was produced (`b` tells whether its
filename matches the spec's regular expression), `none` otherwise. -/
def resultFilenameSafe (r : Py (Option Media)) : Option Bool :=
  match r.out with
  | Except.ok (some m) => some (matchesSafeRe m.content.filename)
  | _ => none

/-- A platform profile requiring the external downloader, with one format. -/
def pcfgYt : PlatformConfig :=
  { name := "youtube", ytdlp := true, ytdlp_formats := ["best"] }

/-- A configuration with a duration ceiling of 600 and fallback enabled. -/
def cfgDur : Config :=
  { baseConfig with file := { max_duration := 600, max_in_memory_file_size := 100 } }

/-- Metadata declaring a non-live item of duration `d` with a thumbnail. -/
def mdDur (d : Nat) : MetaDict :=
  { duration := some d
    selected_format := some "best"
    webpage_url := some "https://youtube.com/watch"
    thumbnail := some "https://img.example/t.jpg" }

/-- A profile with three declared formats, for the command-order scenario. -/
def pcfgABC : PlatformConfig :=
  { name := "yt", ytdlp := true, ytdlp_formats := ["a", "b", "c"] }

/-- Metadata whose query selected format `b`. -/
def mdC6 : MetaDict :=
  { selected_format := some "b", webpage_url := some "https://youtube.com/watch" }

/-- An oracle where the `b`-format command fails retryably and every other
download command succeeds with one file. -/
def envC6 : Env :=
  { baseEnv with
    runDownload := fun cmd =>
      if pyIn "-f 'b'" cmd then DownloadOutcome.exitErr "HTTP Error 500"
      else DownloadOutcome.okFiles [[9]] }

/-- The download commands built for the three-format profile. -/
def cmdsC6 : List CmdEntry :=
  (create_ytdlp_commands "https://youtube.com/watch" "download" pcfgABC "u" none).toOption.getD []

/-- The command list with the query-selected format promoted to the front. -/
def promotedC6 : List CmdEntry :=
  match cmdsC6.find? (fun cmd => cmd.selected_format = "b") with
  | none => cmdsC6
  | some priority_command => priority_command :: cmdsC6.erase priority_command

/-- An oracle whose advanced download succeeds with three bytes. -/
def envC7 : Env :=
  { baseEnv with runDownload := fun _ => DownloadOutcome.okFiles [[1, 2, 3]] }

/-- A configuration with normalization and thumbnail generation disabled. -/
def cfgC7 : Config :=
  { baseConfig with
    ffmpeg := ⟨true, false, false, false⟩
    file := { max_in_memory_file_size := 1000 } }

/-- Metadata whose title carries an exclamation mark (not in the replaced
character class). -/
def mdC7 : MetaDict :=
  { title := some "Cool!Video"
    selected_format := some "best"
    webpage_url := some "https://youtube.com/watch" }

/-- The request for the filename scenario. -/
def reqC7 : MediaRequest :=
  { platform_config := pcfgYt
    url := "https://youtube.com/watch"
    uuid := "u1"
    ytdlp_metadata := some mdC7
    modifier := none }

/-- A plain metadata dictionary for packaging one artifact. -/
def omW : OtherMeta :=
  { id := some "id1"
    extractor := some "host"
    uploader := "up"
    title := "title"
    url := "https://host.example/a"
    origin := "advanced" }

/-- The artifact packaged from `omW` over a two-byte stream. -/
def mfW : MediaFile :=
  ((create_media_object baseEnv [5, 6] omW ⟨1, 2, 3⟩).out.toOption).getD
    ⟨"", ⟨"", none, "", "", "", none, "", "", 0, 0, 0, 0, "", none, none, none⟩, []⟩

/-- A profile not requiring the external downloader. -/
def pcfgSimple : PlatformConfig := { name := "generic", ytdlp := false }

/-- An oracle for the simple-fetch scenario whose ffmpeg thumbnail
extraction raises. -/
def envC8 : Env :=
  { baseEnv with
    httpGet := fun _ => HttpOutcome.resp 200 [[1, 2, 3]]
    extractThumbnail := fun _ _ =>
      Except.error (PyErr.runtimeError "ffmpeg conversion failed") }

/-- A configuration with thumbnail generation enabled and normalization
disabled. -/
def cfgC8 : Config :=
  { baseConfig with ffmpeg := ⟨true, false, false, true⟩ }

/-- The request for the thumbnail-exception scenario. -/
def reqC8 : MediaRequest :=
  { platform_config := pcfgSimple
    url := "https://cdn.example/v.mp4"
    uuid := "u2"
    ytdlp_metadata := none
    modifier := none }

/-- An oracle for the fallback round trip: the thumbnail URL serves two
JPEG bytes. -/
def envC1 : Env :=
  { baseEnv with
    httpGet := fun _ => HttpOutcome.resp 200 [[7, 7]]
    mime := fun _ => "image/jpeg"
    extractMetadata := fun _ => Except.ok ⟨320, 240, 0⟩ }

/-- The request of the spec's Scenario B: declared duration 99999 against
ceiling 600. -/
def reqC1 : MediaRequest :=
  { platform_config := pcfgYt
    url := "https://youtube.com/watch"
    uuid := "u3"
    ytdlp_metadata := some (mdDur 99999)
    modifier := none }

/-! ## Theorems -/

@[simp] theorem Py.bind_out {α β : Type} (x : Py α) (f : α → Py β) :
    (x >>= f).out =
      match x.out with
      | Except.error e => Except.error e
      | Except.ok a => (f a).out := by
  cases x with
  | mk o t => cases o <;> rfl

@[simp] theorem Py.bind_trace {α β : Type} (x : Py α) (f : α → Py β) :
    (x >>= f).trace =
      match x.out with
      | Except.error _ => x.trace
      | Except.ok a => x.trace ++ (f a).trace := by
  cases x with
  | mk o t => cases o <;> rfl

@[simp] theorem Py.pure_out {α : Type} (a : α) :
    (pure a : Py α).out = Except.ok a := rfl

@[simp] theorem Py.pure_trace {α : Type} (a : α) :
    (pure a : Py α).trace = [] := rfl

@[simp] theorem Py.pure_bind {α β : Type} (a : α) (f : α → Py β) :
    (pure a : Py α) >>= f = f a := rfl

@[simp] theorem pyEmit_bind_out {α : Type} (ev : Effect) (f : Unit → Py α) :
    (pyEmit ev >>= f).out = (f ()).out := rfl

@[simp] theorem pyEmit_bind_trace {α : Type} (ev : Effect) (f : Unit → Py α) :
    (pyEmit ev >>= f).trace = ev :: (f ()).trace := rfl

@[simp] theorem pyEmit_out (ev : Effect) : (pyEmit ev).out = Except.ok () := rfl

@[simp] theorem pyEmit_trace (ev : Effect) : (pyEmit ev).trace = [ev] := rfl

@[simp] theorem pyThrow_out {α : Type} (e : PyErr) : (pyThrow e : Py α).out = Except.error e :=
  rfl

@[simp] theorem pyThrow_trace {α : Type} (e : PyErr) : (pyThrow e : Py α).trace = [] := rfl

@[simp] theorem pyOfExcept_out {α : Type} (e : Except PyErr α) : (pyOfExcept e).out = e := rfl

@[simp] theorem pyOfExcept_trace {α : Type} (e : Except PyErr α) :
    (pyOfExcept e).trace = [] := rfl

@[simp] theorem pyOfExcept_ok_bind {α β : Type} (a : α) (f : α → Py β) :
    (pyOfExcept (Except.ok a) >>= f) = f a := rfl

@[simp] theorem pyOfExcept_error_bind {α β : Type} (e : PyErr) (f : α → Py β) :
    (pyOfExcept (Except.error e) >>= f) = pyThrow e := rfl

@[simp] theorem pyTryAll_out {α : Type} (x : Py α) (h : PyErr → Py α) :
    (pyTryAll x h).out =
      match x.out with
      | Except.ok a => Except.ok a
      | Except.error e => (h e).out := by
  unfold pyTryAll
  cases hx : x.out with
  | ok a => simp only [hx]
  | error e => simp only [hx]


/-- C4: when the platform-profile lookup for the normalized domain fails,
`create_media_request` returns `None` and its effect trace is empty — no
HTTP fetch, cookie-file access, metadata query or subprocess invocation has
been observed. -/
theorem create_media_request_profile_miss_no_effects (env : Env) (config : Config)
    (url : String) (modifier : Option String) (query_derived : Bool)
    (h : get_platform_config config (get_domain url) query_derived = none) :
    (create_media_request env config url modifier query_derived).out = Except.ok none ∧
      (create_media_request env config url modifier query_derived).trace = [] := by
  have heq : create_media_request env config url modifier query_derived = pure none := by
    unfold create_media_request
    simp only [h]
  rw [heq]
  exact ⟨rfl, rfl⟩

/-- Witness for C4: a URL whose domain has no platform entry in an otherwise
fully configured system. -/
theorem create_media_request_profile_miss_no_effects_witness :
    (create_media_request baseEnv baseConfig
        "https://nosuch.example/watch" none false).out = Except.ok none := by
  exact (create_media_request_profile_miss_no_effects _ _ _ _ _ (by decide)).1

/-- C3 (divergence record): `ytdlp_execute_download` never raises the
distinct size-limit error kind `DownloadSizeExceededError`, whatever the
commands and subprocess outcomes — it performs no size check at all — and
concretely it returns a 100-byte download untouched although only the
surrounding pipeline's configuration caps in-memory files at 10 bytes. -/
theorem ytdlp_execute_download_never_size_error :
    (∀ (env : Env) (commands : List CmdEntry) (uuid : String)
        (name : String) (total maxFileSize : Nat),
      (ytdlp_execute_download env commands uuid).out ≠
        Except.error (PyErr.downloadSizeExceeded name total maxFileSize)) ∧
    (ytdlp_execute_download
        { baseEnv with runDownload := fun _ => DownloadOutcome.okFiles [List.replicate 100 7] }
        [⟨"yt-dlp …", "best"⟩] "req-1").out = Except.ok (List.replicate 100 7) := by
  constructor
  · intro env commands uuid name total maxFileSize
    unfold ytdlp_execute_download
    generalize (none : Option PyErr) = lastExc
    induction commands generalizing lastExc with
    | nil =>
        cases lastExc <;> simp [ytdlpExecuteDownloadGo, ytdlpDownloadFinalError, pyThrow]
    | cons c rest ih =>
        by_cases hc : c.command = ""
        · simpa [ytdlpExecuteDownloadGo, hc] using ih lastExc
        · simp only [ytdlpExecuteDownloadGo, hc, if_neg]
          cases hdl : env.runDownload c.command with
          | exn msg => simpa [hdl, pyEmit] using ih _
          | exitErr stderrMsg =>
              by_cases h403 : pyIn "403" stderrMsg
              · cases lastExc <;>
                  simp [hdl, h403, pyEmit, pyThrow, ytdlpDownloadFinalError]
              · simpa [hdl, h403, pyEmit] using ih _
          | okFiles files =>
              match files with
              | [] => simpa [hdl, pyEmit] using ih _
              | [b] => simp [hdl, pyEmit]
              | b₁ :: b₂ :: t => simpa [hdl, pyEmit] using ih _
  · rfl

/-- C10 (divergence record): an invocation of `preprocess` rejected by the
active-task limit check returns with the packet's event id still in
`preprocess_tasks` (the early `return` bypasses the `finally: discard`), and
the leaked id then keeps consuming the concurrency bound: with limit 0 and
an initially empty set, the first packet's id is never removed, and after a
second (also rejected) invocation both ids remain. -/
theorem preprocess_limit_reject_leaks_id :
    (preprocess (fun _ => HandleOutcome.ok true) ⟨0, 5⟩
        ⟨∅, []⟩ ⟨"ev1"⟩).preprocess_tasks = {"ev1"} ∧
    (preprocess (fun _ => HandleOutcome.ok true) ⟨0, 5⟩
        (preprocess (fun _ => HandleOutcome.ok true) ⟨0, 5⟩ ⟨∅, []⟩ ⟨"ev1"⟩)
        ⟨"ev2"⟩).preprocess_tasks = {"ev1", "ev2"} := by
  constructor <;> decide

/-- C9: one `preprocess` invocation preserves the queue bound, never grows a
full queue (the packet is dropped, the call still returns), and enqueues a
successfully preprocessed packet exactly when the queue has free space. -/
theorem preprocess_queue_bounded (handle : CommandPacket → HandleOutcome)
    (qc : QueueConfig) (st : WorkerState) (p : CommandPacket)
    (hcap : 0 < qc.event_queue_capacity)
    (hinv : st.event_queue.length ≤ qc.event_queue_capacity) :
    (preprocess handle qc st p).event_queue.length ≤ qc.event_queue_capacity ∧
    (st.event_queue.length = qc.event_queue_capacity →
      (preprocess handle qc st p).event_queue = st.event_queue) ∧
    (is_allowed qc (insert p.eventId st.preprocess_tasks) = true →
      handle p = HandleOutcome.ok true →
      st.event_queue.length < qc.event_queue_capacity →
      (preprocess handle qc st p).event_queue = st.event_queue ++ [p]) := by
  by_cases hallow : is_allowed qc (insert p.eventId st.preprocess_tasks) = true
  · have heq : preprocess handle qc st p =
        { preprocess_tasks := (insert p.eventId st.preprocess_tasks).erase p.eventId
          event_queue :=
            match handle p with
            | HandleOutcome.ok true =>
                if putNowaitFull qc st.event_queue then st.event_queue
                else st.event_queue ++ [p]
            | HandleOutcome.ok false => st.event_queue
            | HandleOutcome.exn _ => st.event_queue } := by
      unfold preprocess
      simp [hallow]
    rw [heq]
    cases hh : handle p with
    | ok t =>
        cases t with
        | true =>
            by_cases hfull : putNowaitFull qc st.event_queue = true
            · have hfull' : st.event_queue.length ≥ qc.event_queue_capacity := by
                unfold putNowaitFull at hfull
                simp only [Bool.and_eq_true, decide_eq_true_eq] at hfull
                exact hfull.2
              refine ⟨by simpa [hfull] using hinv, fun _ => by simp [hfull], ?_⟩
              intro _ _ hlt
              omega
            · have hfree : st.event_queue.length < qc.event_queue_capacity := by
                unfold putNowaitFull at hfull
                simp only [Bool.and_eq_true, decide_eq_true_eq, not_and, not_le] at hfull
                exact hfull hcap
              refine ⟨?_, ?_, ?_⟩
              · simp only [hfull, Bool.false_eq_true, if_neg, not_false_iff,
                  List.length_append, List.length_cons, List.length_nil]
                omega
              · intro heqlen
                omega
              · intro _ _ _
                simp [hfull]
        | false => exact ⟨hinv, fun _ => rfl, fun _ hok _ => by simp [hh] at hok⟩
    | exn m => exact ⟨hinv, fun _ => rfl, fun _ hok _ => by simp [hh] at hok⟩
  · have hfalse : is_allowed qc (insert p.eventId st.preprocess_tasks) = false := by
      revert hallow
      cases is_allowed qc (insert p.eventId st.preprocess_tasks) <;> simp
    have heq : preprocess handle qc st p =
        { st with preprocess_tasks := insert p.eventId st.preprocess_tasks } := by
      unfold preprocess
      simp [hfalse]
    rw [heq]
    exact ⟨hinv, fun _ => rfl, fun hok => by rw [hok] at hfalse; cases hfalse⟩

/-- Witness for C9: a concrete run in which one packet is enqueued into a
queue with free space. -/
theorem preprocess_queue_bounded_witness :
    0 < (3 : Nat) ∧ ([] : List CommandPacket).length ≤ 3 ∧
      (preprocess (fun _ => HandleOutcome.ok true) ⟨4, 3⟩
          ⟨∅, []⟩ ⟨"evA"⟩).event_queue = [⟨"evA"⟩] := by
  refine ⟨by decide, by decide, ?_⟩
  exact (preprocess_queue_bounded (fun _ => HandleOutcome.ok true) ⟨4, 3⟩
      ⟨∅, []⟩ ⟨"evA"⟩ (by decide) (by decide)).2.2 (by decide) rfl (by decide)

/-- The streaming loop aborts with the bare-`raise` error as soon as some
prefix of the chunk stream pushes the running total over a positive cap. -/
theorem streamChunks_error (cap : Nat) :
    ∀ (chunks : List Bytes) (tot : Nat) (acc : Bytes), 0 < cap → tot ≤ cap →
      (∃ k, cap < tot + ((chunks.take k).map List.length).sum) →
      streamChunks cap chunks tot acc =
        Except.error (PyErr.runtimeError "No active exception to re-raise") := by
  intro chunks
  induction chunks with
  | nil =>
      intro tot acc _ htot ⟨k, hk⟩
      simp at hk
      omega
  | cons c cs ih =>
      intro tot acc hcap htot ⟨k, hk⟩
      unfold streamChunks
      by_cases hover : cap > 0 && tot + c.length > cap
      · simp [hover]
      · have hle : tot + c.length ≤ cap := by
          simp only [Bool.and_eq_true, decide_eq_true_eq, not_and, not_lt] at hover
          exact hover hcap
        simp only [hover, Bool.false_eq_true, if_neg, not_false_iff]
        apply ih (tot + c.length) (acc ++ c) hcap hle
        cases k with
        | zero =>
            simp at hk
            omega
        | succ k' =>
            refine ⟨k', ?_⟩
            simp only [List.take_succ_cons, List.map_cons, List.sum_cons] at hk
            omega

/-- C5: when the streamed bytes exceed the configured in-memory cap,
`client_download` raises (no partially accumulated data is ever returned)
after exactly one HTTP GET — the abort is not retried — and in general no
call of `client_download` ever performs more than one HTTP GET
(`max_retries` is fixed at 1), so no retry of any kind, in particular
none beyond transport failures, can occur. -/
theorem client_download_size_abort (env : Env) (config : Config)
    (pcfg : PlatformConfig) (url : String) (chunks : List Bytes)
    (hresp : env.httpGet url = HttpOutcome.resp 200 chunks)
    (hcap : 0 < config.file.max_in_memory_file_size)
    (hexceed : ∃ k, config.file.max_in_memory_file_size <
      ((chunks.take k).map List.length).sum) :
    (client_download env config pcfg url).out =
        Except.error (PyErr.runtimeError "No active exception to re-raise") ∧
    (client_download env config pcfg url).trace = [Effect.httpGet url, Effect.sleep 1] ∧
    ∀ (env' : Env) (config' : Config) (pcfg' : PlatformConfig) (url' : String),
      httpGetCount (client_download env' config' pcfg' url').trace ≤ 1 := by
  have herr := streamChunks_error config.file.max_in_memory_file_size chunks 0 [] hcap
    (Nat.zero_le _) (by simpa using hexceed)
  have heq : client_download env config pcfg url =
      pyEmit (Effect.httpGet url) >>= fun _ =>
        pyEmit (Effect.sleep 1) >>= fun _ =>
          clientDownloadGo env config.file.max_in_memory_file_size url 0 := by
    unfold client_download clientDownloadGo
    rw [hresp]
    simp [herr, clientDownloadGo]
  refine ⟨?_, ?_, ?_⟩
  · rw [heq]; rfl
  · rw [heq]; rfl
  · intro env' config' pcfg' url'
    unfold client_download clientDownloadGo
    cases env'.httpGet url' with
    | exn msg => simp [httpGetCount, pyEmit, pyThrow, clientDownloadGo]
    | resp status chunks' =>
        by_cases hst : status != 200
        · simp [hst, httpGetCount, pyEmit, pyThrow, clientDownloadGo]
        · cases hs : streamChunks config'.file.max_in_memory_file_size chunks' 0 [] with
          | ok b => simp [hst, hs, httpGetCount, pyEmit]
          | error e => simp [hst, hs, httpGetCount, pyEmit, pyThrow, clientDownloadGo]

/-- Witness for C5: a 4-byte chunk against a 3-byte cap. -/
theorem client_download_size_abort_witness :
    (client_download { baseEnv with httpGet := fun _ => HttpOutcome.resp 200 [[1, 2, 3, 4]] }
        { baseConfig with file := { max_in_memory_file_size := 3 } }
        { name := "p", ytdlp := false } "http://host.example/f").out =
      Except.error (PyErr.runtimeError "No active exception to re-raise") :=
  (client_download_size_abort _ _ _ _ [[1, 2, 3, 4]] rfl (by decide)
    ⟨1, by decide⟩).1

/-- C2: for a non-live advanced download with declared duration `d` and the
modifier-selected ceiling `m`, the duration gate leaves the run on the full
download path when `d ≤ m` (in particular at `d = m` exactly; the size gate
passing), and hands the run to the thumbnail-fallback-or-fail block exactly
when `d > m`. -/
theorem duration_gate_boundary (env : Env) (config : Config) (md : MetaDict)
    (pcfg : PlatformConfig) (uuid : String) (modifier : Option String) (d m : Nat)
    (hlive : truthyBool md.is_live = false)
    (hdur : md.duration = some d)
    (hm : m = (if modifier = some "force_audio_only" then config.file.max_audio_only_duration
      else config.file.max_duration)) :
    (d > m → download_advanced_media env config md pcfg uuid modifier =
        pyTryAll (advFallbackOrFail env config md pcfg) (fun _ => pure (none, false))) ∧
    (d ≤ m → truthyNat md.filesize_approx = false →
      download_advanced_media env config md pcfg uuid modifier =
        pyTryAll (advDownloadPhase env config md pcfg uuid modifier)
          (fun _ => pure (none, false))) := by
  constructor
  · intro hgt
    have hd0 : truthyNat md.duration = true := by
      rw [hdur]; simp [truthyNat]; omega
    unfold download_advanced_media
    rw [← hm]
    simp only [hlive, Bool.false_eq_true, if_neg, not_false_iff]
    rw [if_pos ⟨hd0, by rw [hdur]; simpa using hgt⟩]
  · intro hle hsize
    unfold download_advanced_media
    rw [← hm]
    simp only [hlive, Bool.false_eq_true, if_neg, not_false_iff]
    rw [if_neg (by
      rintro ⟨-, hgt⟩
      rw [hdur] at hgt
      simp at hgt
      omega)]
    rw [if_neg (by
      rintro ⟨htr, -⟩
      rw [hsize] at htr
      cases htr)]

/-- Witness for C2: ceiling 600; duration 600 proceeds to the download
phase, duration 601 goes to the fallback-or-fail block. -/
theorem duration_gate_boundary_witness :
    (download_advanced_media baseEnv cfgDur (mdDur 600) pcfgYt "u" none =
      pyTryAll (advDownloadPhase baseEnv cfgDur (mdDur 600) pcfgYt "u" none)
        (fun _ => pure (none, false))) ∧
    (download_advanced_media baseEnv cfgDur (mdDur 601) pcfgYt "u" none =
      pyTryAll (advFallbackOrFail baseEnv cfgDur (mdDur 601) pcfgYt)
        (fun _ => pure (none, false))) := by
  constructor
  · exact (duration_gate_boundary baseEnv cfgDur (mdDur 600) pcfgYt "u" none 600 600
      rfl rfl (by decide)).2 (by decide) rfl
  · exact (duration_gate_boundary baseEnv cfgDur (mdDur 601) pcfgYt "u" none 601 600
      rfl rfl (by decide)).1 (by decide)

/-- The download loop's subprocess invocations are exactly the spec-side
prefix: the nonempty commands in order, truncated just after the first
stopping command (success, or a non-retryable `403`). -/
theorem ytdlpExecuteDownloadGo_trace (env : Env) (cmds : List CmdEntry) :
    ∀ lastExc, downloadInvocations (ytdlpExecuteDownloadGo env cmds lastExc).trace =
      specExecutedDownloads env cmds := by
  induction cmds with
  | nil =>
      intro lastExc
      cases lastExc <;>
        simp [ytdlpExecuteDownloadGo, ytdlpDownloadFinalError, pyThrow,
          downloadInvocations, specExecutedDownloads, takeThrough]
  | cons c rest ih =>
      intro lastExc
      by_cases hc : c.command = ""
      · simpa [ytdlpExecuteDownloadGo, hc, specExecutedDownloads, takeThrough]
          using ih lastExc
      · simp only [ytdlpExecuteDownloadGo, hc, if_neg, Bool.false_eq_true, not_false_iff]
        cases hdl : env.runDownload c.command with
        | exn msg =>
            simpa [hdl, downloadInvocations, specExecutedDownloads, takeThrough,
              downloadStops, hc] using ih _
        | exitErr stderrMsg =>
            by_cases h403 : pyIn "403" stderrMsg
            · cases lastExc <;>
                simp [hdl, h403, pyThrow, ytdlpDownloadFinalError, downloadInvocations,
                  specExecutedDownloads, takeThrough, downloadStops, hc]
            · simpa [hdl, h403, downloadInvocations, specExecutedDownloads, takeThrough,
                downloadStops, hc] using ih _
        | okFiles files =>
            match files with
            | [] =>
                simpa [hdl, downloadInvocations, specExecutedDownloads, takeThrough,
                  downloadStops, hc] using ih _
            | [b] =>
                simp [hdl, downloadInvocations, specExecutedDownloads, takeThrough,
                  downloadStops, hc]
            | b₁ :: b₂ :: t =>
                simpa [hdl, downloadInvocations, specExecutedDownloads, takeThrough,
                  downloadStops, hc] using ih _

/-- The download loop succeeds with bytes `b` exactly when the first
stopping command among the nonempty ones exited 0 with exactly one file
holding `b`. -/
theorem ytdlpExecuteDownloadGo_ok_iff (env : Env) (cmds : List CmdEntry) :
    ∀ lastExc (b : Bytes), (ytdlpExecuteDownloadGo env cmds lastExc).out = Except.ok b ↔
      ∃ c, (cmds.filter fun x => x.command ≠ "").find? (downloadStops env) = some c ∧
        env.runDownload c.command = DownloadOutcome.okFiles [b] := by
  induction cmds with
  | nil =>
      intro lastExc b
      cases lastExc <;>
        simp [ytdlpExecuteDownloadGo, ytdlpDownloadFinalError, pyThrow]
  | cons c rest ih =>
      intro lastExc b
      by_cases hc : c.command = ""
      · simpa [ytdlpExecuteDownloadGo, hc] using ih lastExc b
      · simp only [ytdlpExecuteDownloadGo, hc, if_neg, Bool.false_eq_true, not_false_iff]
        cases hdl : env.runDownload c.command with
        | exn msg =>
            simpa [hdl, downloadStops, hc] using ih _ b
        | exitErr stderrMsg =>
            by_cases h403 : pyIn "403" stderrMsg
            · cases lastExc <;>
                simp [hdl, h403, pyThrow, ytdlpDownloadFinalError, downloadStops, hc]
            · simpa [hdl, h403, downloadStops, hc] using ih _ b
        | okFiles files =>
            match files with
            | [] => simpa [hdl, downloadStops, hc] using ih _ b
            | [b'] =>
                simp [hdl, downloadStops, hc]
            | b₁ :: b₂ :: t =>
                simpa [hdl, downloadStops, hc] using ih _ b

/-- C6: under the declared metadata (`selected_format`, `webpage_url`) and a
successful command build, the download phase executes the yt-dlp commands
strictly in declared order with the query-selected format's command promoted
to the front, stopping at the first success or at the first recognized
non-retryable (`403`) failure and advancing past any other failure; it
returns bytes exactly when the first stopping command succeeded with exactly
one downloaded file. -/
theorem download_commands_order (env : Env) (config : Config) (md : MetaDict)
    (pcfg : PlatformConfig) (uuid : String) (modifier : Option String)
    (f wurl : String) (cmds promoted : List CmdEntry)
    (hf : md.selected_format = some f)
    (hw : md.webpage_url = some wurl)
    (hc : create_ytdlp_commands wurl "download" pcfg uuid modifier = Except.ok cmds)
    (hp : promoted =
      (match cmds.find? (fun cmd => cmd.selected_format = f) with
        | none => cmds
        | some priority_command => priority_command :: cmds.erase priority_command)) :
    downloadInvocations (advDownloadPhase env config md pcfg uuid modifier).trace =
      specExecutedDownloads env promoted ∧
    ∀ b : Bytes, (advDownloadPhase env config md pcfg uuid modifier).out =
        Except.ok (some b, false) ↔
      ∃ c, (promoted.filter fun x => x.command ≠ "").find? (downloadStops env) = some c ∧
        env.runDownload c.command = DownloadOutcome.okFiles [b] := by
  have hX : advDownloadPhase env config md pcfg uuid modifier =
      pyTryCatchSize
        (ytdlp_execute_download env promoted uuid >>= fun data => pure (some data, false))
        (advFallbackOrFail env config md pcfg) := by
    unfold advDownloadPhase
    rw [hp]
    simp [MetaDict.itemSelectedFormat, MetaDict.itemWebpageUrl, hf, hw, hc]
  have hnosize := (ytdlp_execute_download_never_size_error).1 env promoted uuid
  have htraceD : downloadInvocations (ytdlp_execute_download env promoted uuid).trace =
      specExecutedDownloads env promoted :=
    ytdlpExecuteDownloadGo_trace env promoted none
  have hokD : ∀ b : Bytes, (ytdlp_execute_download env promoted uuid).out = Except.ok b ↔
      ∃ c, (promoted.filter fun x => x.command ≠ "").find? (downloadStops env) = some c ∧
        env.runDownload c.command = DownloadOutcome.okFiles [b] :=
    fun b => ytdlpExecuteDownloadGo_ok_iff env promoted none b
  have htr2 : (ytdlp_execute_download env promoted uuid >>= fun data =>
      pure ((some data, false) : Option Bytes × Bool)).trace =
      (ytdlp_execute_download env promoted uuid).trace := by
    simp only [Py.bind_trace]
    cases h2 : (ytdlp_execute_download env promoted uuid).out <;> simp
  constructor
  · rw [hX]
    unfold pyTryCatchSize
    cases hout : (ytdlp_execute_download env promoted uuid >>= fun data =>
        pure (some data, false) : Py (Option Bytes × Bool)).out with
    | ok v =>
        simp only [hout]
        rw [htr2]
        exact htraceD
    | error e =>
        have hout2 : (ytdlp_execute_download env promoted uuid).out = Except.error e := by
          simp only [Py.bind_out] at hout
          cases h2 : (ytdlp_execute_download env promoted uuid).out with
          | ok a => rw [h2] at hout; simp at hout
          | error e2 => rw [h2] at hout; simpa using hout
        cases e with
        | downloadSizeExceeded n t m => exact absurd hout2 (hnosize n t m)
        | runtimeError m => simp only [hout]; rw [htr2]; exact htraceD
        | valueError m => simp only [hout]; rw [htr2]; exact htraceD
        | keyError k => simp only [hout]; rw [htr2]; exact htraceD
        | typeError m => simp only [hout]; rw [htr2]; exact htraceD
        | fileNotFoundError m => simp only [hout]; rw [htr2]; exact htraceD
        | queueFull => simp only [hout]; rw [htr2]; exact htraceD
        | otherError m => simp only [hout]; rw [htr2]; exact htraceD
  · intro b
    rw [hX]
    unfold pyTryCatchSize
    cases hout : (ytdlp_execute_download env promoted uuid >>= fun data =>
        pure (some data, false) : Py (Option Bytes × Bool)).out with
    | ok v =>
        simp only [hout]
        simp only [Py.bind_out] at hout
        cases h2 : (ytdlp_execute_download env promoted uuid).out with
        | ok a =>
            rw [h2] at hout
            simp only [Py.pure_out] at hout
            have hv : v = (some a, false) := by
              cases hout
              rfl
            subst hv
            constructor
            · intro h3
              have hab : a = b := by
                simp only [Except.ok.injEq, Prod.mk.injEq, Option.some.injEq] at h3
                exact h3.1
              subst hab
              exact (hokD a).mp h2
            · intro h3
              have hgo := (hokD b).mpr h3
              rw [h2] at hgo
              simp only [Except.ok.injEq] at hgo
              rw [hgo]
        | error e2 => rw [h2] at hout; simp at hout
    | error e =>
        have hout2 : (ytdlp_execute_download env promoted uuid).out = Except.error e := by
          simp only [Py.bind_out] at hout
          cases h2 : (ytdlp_execute_download env promoted uuid).out with
          | ok a => rw [h2] at hout; simp at hout
          | error e2 => rw [h2] at hout; simpa using hout
        have hform : ¬ ∃ c, ((promoted.filter fun x => x.command ≠ "").find?
            (downloadStops env) = some c ∧
            env.runDownload c.command = DownloadOutcome.okFiles [b]) := by
          intro h3
          have := (hokD b).mpr h3
          rw [hout2] at this
          cases this
        cases e with
        | downloadSizeExceeded n t m => exact absurd hout2 (hnosize n t m)
        | runtimeError m => simp only [hout]; simpa using hform
        | valueError m => simp only [hout]; simpa using hform
        | keyError k => simp only [hout]; simpa using hform
        | typeError m => simp only [hout]; simpa using hform
        | fileNotFoundError m => simp only [hout]; simpa using hform
        | queueFull => simp only [hout]; simpa using hform
        | otherError m => simp only [hout]; simpa using hform

/-- Witness for C6: formats `a, b, c` with `b` promoted to the front; `b`
fails retryably, `a` then succeeds, so exactly two commands run and the
third is never attempted. -/
theorem download_commands_order_witness :
    downloadInvocations
        (advDownloadPhase envC6 cfgDur mdC6 pcfgABC "u" none).trace =
      specExecutedDownloads envC6 promotedC6 ∧
    (specExecutedDownloads envC6 promotedC6).length = 2 := by
  constructor
  · exact (download_commands_order envC6 cfgDur mdC6 pcfgABC "u" none "b"
      "https://youtube.com/watch" cmdsC6 promotedC6 rfl rfl rfl rfl).1
  · rfl

/-- Run-collapsing never lengthens a list. -/
theorem collapseRuns_length_le (p : Char → Bool) (rep : Char) :
    ∀ (l : List Char) (b : Bool), (collapseRuns p rep l b).length ≤ l.length := by
  intro l
  induction l with
  | nil => intro b; simp [collapseRuns]
  | cons c cs ih =>
      intro b
      unfold collapseRuns
      by_cases h : p c = true
      · rw [if_pos h]
        cases b
        · simpa using Nat.succ_le_succ (ih true)
        · exact Nat.le_succ_of_le (ih true)
      · rw [if_neg h]
        simpa using Nat.succ_le_succ (ih false)

/-- Every character of a run-collapsed list is the replacement character or
a non-run character of the input. -/
theorem collapseRuns_mem (p : Char → Bool) (rep : Char) :
    ∀ (l : List Char) (b : Bool) (c : Char), c ∈ collapseRuns p rep l b →
      c = rep ∨ (c ∈ l ∧ p c = false) := by
  intro l
  induction l with
  | nil => intro b c h; simp [collapseRuns] at h
  | cons x xs ih =>
      intro b c h
      unfold collapseRuns at h
      by_cases hx : p x = true
      · rw [if_pos hx] at h
        cases b
        · simp only [if_neg, Bool.false_eq_true, not_false_iff, List.mem_cons] at h
          rcases h with h | h
          · exact Or.inl h
          · rcases ih true c h with h2 | ⟨hmem, hp⟩
            · exact Or.inl h2
            · exact Or.inr ⟨List.mem_cons_of_mem x hmem, hp⟩
        · rcases ih true c (by simpa using h) with h2 | ⟨hmem, hp⟩
          · exact Or.inl h2
          · exact Or.inr ⟨List.mem_cons_of_mem x hmem, hp⟩
      · rw [if_neg hx] at h
        rcases List.mem_cons.mp h with h | h
        · subst h
          exact Or.inr ⟨List.mem_cons_self c xs, by revert hx; cases p c <;> simp⟩
        · rcases ih false c h with h2 | ⟨hmem, hp⟩
          · exact Or.inl h2
          · exact Or.inr ⟨List.mem_cons_of_mem x hmem, hp⟩

/-- A non-run character of the input survives run-collapsing. -/
theorem mem_collapseRuns_of_mem (p : Char → Bool) (rep : Char) :
    ∀ (l : List Char) (b : Bool) (c : Char), c ∈ l → p c = false →
      c ∈ collapseRuns p rep l b := by
  intro l
  induction l with
  | nil => intro b c h; simp at h
  | cons x xs ih =>
      intro b c h hp
      unfold collapseRuns
      rcases List.mem_cons.mp h with h | h
      · subst h
        rw [if_neg (by rw [hp]; simp)]
        exact List.mem_cons_self c _
      · by_cases hx : p x = true
        · rw [if_pos hx]
          cases b
          · exact List.mem_cons_of_mem rep (ih true c h hp)
          · exact ih true c h hp
        · rw [if_neg hx]
          exact List.mem_cons_of_mem x (ih false c h hp)

/-- Run-collapsing a nonempty list from outside a run is nonempty. -/
theorem collapseRuns_ne_nil (p : Char → Bool) (rep : Char) (l : List Char)
    (h : l ≠ []) : collapseRuns p rep l false ≠ [] := by
  cases l with
  | nil => exact absurd rfl h
  | cons x xs =>
      unfold collapseRuns
      by_cases hx : p x = true
      · rw [if_pos hx]
        simp
      · rw [if_neg hx]
        simp

/-- `dropWhile` only removes elements, so membership descends. -/
theorem mem_of_mem_dropWhile {p : Char → Bool} :
    ∀ {l : List Char} {c : Char}, c ∈ l.dropWhile p → c ∈ l := by
  intro l
  induction l with
  | nil => intro c h; simp at h
  | cons x xs ih =>
      intro c h
      rw [List.dropWhile_cons] at h
      by_cases hx : p x = true
      · rw [if_pos hx] at h
        exact List.mem_cons_of_mem x (ih h)
      · rw [if_neg hx] at h
        exact h

/-- An element not satisfying `p` survives `dropWhile p`. -/
theorem mem_dropWhile_of_mem {p : Char → Bool} :
    ∀ {l : List Char} {c : Char}, c ∈ l → p c = false → c ∈ l.dropWhile p := by
  intro l
  induction l with
  | nil => intro c h; simp at h
  | cons x xs ih =>
      intro c h hp
      rw [List.dropWhile_cons]
      rcases List.mem_cons.mp h with h | h
      · subst h
        rw [if_neg (by rw [hp]; simp)]
        exact List.mem_cons_self c _
      · by_cases hx : p x = true
        · rw [if_pos hx]
          exact ih h hp
        · rw [if_neg hx]
          exact List.mem_cons_of_mem x h

/-- Membership descends through `stripUndDot`. -/
theorem mem_of_mem_stripUndDot {l : List Char} {c : Char}
    (h : c ∈ stripUndDot l) : c ∈ l := by
  unfold stripUndDot at h
  have h1 := List.mem_reverse.mp h
  have h2 := mem_of_mem_dropWhile h1
  have h3 := List.mem_reverse.mp h2
  exact mem_of_mem_dropWhile h3

/-- A character that is neither underscore nor dot survives
`stripUndDot`. -/
theorem mem_stripUndDot_of_mem {l : List Char} {c : Char} (h : c ∈ l)
    (hc : (c == '_' || c == '.') = false) : c ∈ stripUndDot l := by
  unfold stripUndDot
  refine List.mem_reverse.mpr (mem_dropWhile_of_mem ?_ hc)
  exact List.mem_reverse.mpr (mem_dropWhile_of_mem h hc)

/-- All characters of the sanitized filename base are ASCII, outside the
replaced class and non-whitespace. -/
theorem generate_filename_chars (m : OtherMeta) :
    ∀ c ∈ (generate_filename m).toList,
      c.toNat < 128 ∧ invalidFilenameChar c = false ∧ pyWhitespace c = false := by
  intro c hc
  have hund : ('_' : Char).toNat < 128 ∧ invalidFilenameChar '_' = false ∧
      pyWhitespace '_' = false := by decide
  unfold generate_filename at hc
  simp only [String.toList] at hc
  rcases collapseRuns_mem _ _ _ _ _ hc with h | ⟨h, -⟩
  · subst h; exact hund
  · have h2 := List.take_subset _ _ h
    have h3 := mem_of_mem_stripUndDot h2
    rcases collapseRuns_mem _ _ _ _ _ h3 with h4 | ⟨h4, -⟩
    · subst h4; exact hund
    · rcases collapseRuns_mem _ _ _ _ _ h4 with h5 | ⟨h5, hws⟩
      · subst h5; exact hund
      · rcases List.mem_map.mp h5 with ⟨c0, hc0, hmap⟩
        by_cases hinv : invalidFilenameChar c0 = true
        · rw [if_pos hinv] at hmap
          subst hmap; exact hund
        · rw [if_neg hinv] at hmap
          subst hmap
          have hascii : c0.toNat < 128 := by
            have := List.mem_filter.mp hc0
            simpa using this.2
          refine ⟨hascii, ?_, hws⟩
          revert hinv; cases invalidFilenameChar c0 <;> simp

/-- The sanitized filename base has between 1 and 255 characters. -/
theorem generate_filename_length (m : OtherMeta) :
    1 ≤ (generate_filename m).length ∧ (generate_filename m).length ≤ 255 := by
  have key1 : ∀ l4 : List Char, ('-' : Char) ∈ l4 →
      1 ≤ (String.mk (collapseRuns (fun c => c == '_') '_'
        ((stripUndDot l4).take 255) false)).length := by
    intro l4 hmem
    have h5 := mem_stripUndDot_of_mem hmem (by decide)
    have hne : stripUndDot l4 ≠ [] := fun hnil => by rw [hnil] at h5; simp at h5
    have htake : (stripUndDot l4).take 255 ≠ [] := by
      cases hl : stripUndDot l4 with
      | nil => exact absurd hl hne
      | cons a l2 => simp
    have hfinal := collapseRuns_ne_nil (fun c => c == '_') '_' _ htake
    have hlen : (collapseRuns (fun c => c == '_') '_'
        ((stripUndDot l4).take 255) false).length ≠ 0 := by
      simpa [List.length_eq_zero] using hfinal
    have : (String.mk (collapseRuns (fun c => c == '_') '_'
        ((stripUndDot l4).take 255) false)).length =
        (collapseRuns (fun c => c == '_') '_' ((stripUndDot l4).take 255) false).length :=
      rfl
    omega
  have key2 : ∀ l4 : List Char,
      (String.mk (collapseRuns (fun c => c == '_') '_'
        ((stripUndDot l4).take 255) false)).length ≤ 255 := by
    intro l4
    have h1 := collapseRuns_length_le (fun c => c == '_') '_' ((stripUndDot l4).take 255) false
    have h2 : ((stripUndDot l4).take 255).length ≤ 255 := List.length_take_le 255 _
    have h3 : (String.mk (collapseRuns (fun c => c == '_') '_'
        ((stripUndDot l4).take 255) false)).length =
        (collapseRuns (fun c => c == '_') '_' ((stripUndDot l4).take 255) false).length :=
      rfl
    omega
  have hdash : ('-' : Char) ∈ (m.title ++ "-" ++ m.uploader ++ "-" ++
      pyStrOfOpt m.extractor ++ "-" ++ pyStrOfOpt m.id).toList := by
    simp only [String.toList, String.data_append]
    simp
  have h1 : ('-' : Char) ∈ asciiEncodeIgnore (m.title ++ "-" ++ m.uploader ++ "-" ++
      pyStrOfOpt m.extractor ++ "-" ++ pyStrOfOpt m.id).toList := by
    unfold asciiEncodeIgnore
    exact List.mem_filter.mpr ⟨hdash, by decide⟩
  have h2 : ('-' : Char) ∈ (asciiEncodeIgnore (m.title ++ "-" ++ m.uploader ++ "-" ++
      pyStrOfOpt m.extractor ++ "-" ++ pyStrOfOpt m.id).toList).map
        (fun c => if invalidFilenameChar c then '_' else c) :=
    List.mem_map.mpr ⟨'-', h1, by decide⟩
  have h3 := mem_collapseRuns_of_mem pyWhitespace '_' _ false '-' h2 (by decide)
  have h4 := mem_collapseRuns_of_mem (fun c => c == '_') '_' _ false '-' h3 (by decide)
  exact ⟨key1 _ h4, key2 _⟩

/-- C7 (amended): every artifact built by `_create_media_object` has `size`
equal to the exact byte length of its stream, and its filename is the
sanitized base — nonempty, at most 255 characters, every character ASCII,
outside the replaced class and non-whitespace — followed by a dot and the
extension.  (The spec's full character class `[A-Za-z0-9_.-]{1,255}` does
not hold: see the counterexample.) -/
theorem artifact_size_and_filename (env : Env) (stream : Bytes) (om : OtherMeta)
    (fm : FfmpegMetadata) (mf : MediaFile)
    (h : (create_media_object env stream om fm).out = Except.ok mf) :
    mf.metadata.size = mf.stream.length ∧ mf.stream = stream ∧
    mf.filename = generate_filename om ++ "." ++ mf.metadata.ext ∧
    1 ≤ (generate_filename om).length ∧ (generate_filename om).length ≤ 255 ∧
    ∀ c ∈ (generate_filename om).toList,
      c.toNat < 128 ∧ invalidFilenameChar c = false ∧ pyWhitespace c = false := by
  unfold create_media_object get_mimetype at h
  cases hm : splitMimeSlash (env.mime stream) with
  | none =>
      simp only [hm] at h
      simp at h
  | some ts =>
      obtain ⟨t, sub⟩ := ts
      simp only [hm, Py.pure_bind, Py.pure_out, Except.ok.injEq] at h
      subst h
      refine ⟨by simp, rfl, rfl, (generate_filename_length om).1,
        (generate_filename_length om).2, generate_filename_chars om⟩

/-- Witness for the amended C7 theorem: a concrete packaged artifact. -/
theorem artifact_size_and_filename_witness :
    mfW.metadata.size = mfW.stream.length ∧ 1 ≤ (generate_filename omW).length := by
  have h := artifact_size_and_filename baseEnv [5, 6] omW ⟨1, 2, 3⟩ mfW rfl
  exact ⟨h.1, h.2.2.2.1⟩

/-- Counterexample to C7 as stated: a successful advanced resolution whose
title holds an exclamation mark produces the filename
`Cool!Video-unknown_uploader-None-None.mp4`, which does not match
`[A-Za-z0-9_.-]{1,255}`. -/
theorem filename_regex_counterexample :
    resultFilenameSafe (process_request envC7 cfgC7 reqC7) = some false := by
  rfl

/-- C8 (divergence record): with a successfully produced primary video
artifact and thumbnail generation enabled, an exception raised by the
ffmpeg thumbnail extraction propagates out of `process_request` (the call
is not wrapped in a try/except), instead of degrading to a `Media` whose
thumbnail is `None`. -/
theorem thumbnail_exception_escalates :
    (∃ mf : MediaFile, (primary_media_controller envC8 cfgC8 reqC8.url
        reqC8.platform_config reqC8.ytdlp_metadata reqC8.uuid reqC8.modifier).out =
      Except.ok (some mf)) ∧
    (process_request envC8 cfgC8 reqC8).out =
      Except.error (PyErr.runtimeError "ffmpeg conversion failed") := by
  exact ⟨⟨_, rfl⟩, rfl⟩

/-- C1: a non-live advanced request over the declared duration or size
ceiling, with fallback enabled, a thumbnail URL present and the thumbnail
fetch succeeding (with image bytes), resolves to a primary artifact of
origin `advanced-thumbnail-fallback` whose `size` is the thumbnail's byte
length and whose `meta_duration`/`meta_size` carry the declared duration
and `filesize_approx`. -/
theorem thumbnail_fallback_round_trip
    (env : Env) (config : Config) (req : MediaRequest) (md : MetaDict)
    (turl wurl sub : String) (data : Bytes) (fm : FfmpegMetadata)
    (hpc : req.platform_config.ytdlp = true)
    (hmd : req.ytdlp_metadata = some md)
    (hlive : truthyBool md.is_live = false)
    (hfb : config.ytdlp.enable_thumbnail_fallback_if_duration_or_size_exceeds = true)
    (hgate :
      (truthyNat md.duration ∧ md.duration.getD 0 >
        (if req.modifier = some "force_audio_only" then config.file.max_audio_only_duration
          else config.file.max_duration)) ∨
      (¬(truthyNat md.duration ∧ md.duration.getD 0 >
        (if req.modifier = some "force_audio_only" then config.file.max_audio_only_duration
          else config.file.max_duration)) ∧
        (truthyNat md.filesize_approx ∧
          md.filesize_approx.getD 0 > config.file.max_in_memory_file_size)))
    (hturl : md.thumbnail = some turl) (hturlne : turl ≠ "")
    (hweb : md.webpage_url = some wurl)
    (hdl : (download_simple_media env config turl req.platform_config).out =
      Except.ok (some data))
    (hdata : data ≠ [])
    (hmime : splitMimeSlash (env.mime data) = some ("image", sub))
    (hprobe : env.extractMetadata data = Except.ok fm) :
    ∃ mf : MediaFile,
      (process_request env config req).out = Except.ok (some ⟨mf, none⟩) ∧
      mf.metadata.origin = "advanced-thumbnail-fallback" ∧
      mf.metadata.size = data.length ∧
      mf.metadata.meta_duration = md.duration ∧
      mf.metadata.meta_size = md.filesize_approx := by
  have hfall : (attempt_thumbnail_fallback env config md req.platform_config).out =
      Except.ok (some data) := by
    unfold attempt_thumbnail_fallback
    have ht : truthyStr md.thumbnail = true := by simp [truthyStr, hturl, hturlne]
    rw [ht]
    simp only [Bool.not_true, Bool.false_eq_true, if_neg, not_false_iff, hturl,
      Option.getD_some]
    exact hdl
  have hfof : (advFallbackOrFail env config md req.platform_config).out =
      Except.ok (some data, true) := by
    unfold advFallbackOrFail
    rw [hfb]
    simp only [Bool.not_true, Bool.false_eq_true, if_neg, not_false_iff, Py.bind_out,
      hfall, Py.pure_out]
  have hadv : (download_advanced_media env config md req.platform_config req.uuid
      req.modifier).out = Except.ok (some data, true) := by
    unfold download_advanced_media
    rw [pyTryAll_out]
    rcases hgate with hdur | ⟨hnd, hsz⟩
    · simp only [hlive, Bool.false_eq_true, if_neg, not_false_iff]
      rw [if_pos hdur, hfof]
    · simp only [hlive, Bool.false_eq_true, if_neg, not_false_iff]
      rw [if_neg hnd, if_pos hsz, hfof]
  have hpost : (post_process env config data (some req.platform_config)
      req.modifier).out = Except.ok (some (data, fm)) := by
    unfold post_process get_mimetype
    rw [pyTryAll_out]
    have h1 : ¬(("image" : String) = "video" ∨
        (("image" : String) = "application" ∧ req.modifier ≠ some "force_audio_only")) := by
      rintro (h | ⟨h, -⟩) <;> exact absurd h (by decide)
    have h2 : ¬(("image" : String) = "audio" ∧ (!req.platform_config.ytdlp) = true) := by
      rintro ⟨h, -⟩
      exact absurd h (by decide)
    simp only [hmime, Py.pure_bind, if_neg h1, if_neg h2, Py.bind_out, Py.pure_out,
      pyEmit_bind_out, pyEmit_out, pyOfExcept_out, hprobe]
  have hpam : ∃ mf : MediaFile,
      (process_advanced_media env data md fm true).out = Except.ok mf ∧
      mf.metadata.origin = "advanced-thumbnail-fallback" ∧
      mf.metadata.size = data.length ∧
      mf.metadata.meta_duration = md.duration ∧
      mf.metadata.meta_size = md.filesize_approx ∧
      mf.metadata.media_type = "image" ∧
      mf.metadata.thumbnail_url = none := by
    unfold process_advanced_media MetaDict.itemWebpageUrl create_media_object get_mimetype
    simp only [hweb, hmime, Py.pure_bind]
    exact ⟨_, rfl, rfl, rfl, rfl, rfl, rfl, rfl⟩
  obtain ⟨mf, hpamOut, hporigin, hpsize, hpmd, hpms, hpmt, hpthumb⟩ := hpam
  have hthumb : (thumbnail_media_controller env config mf req.platform_config
      req.modifier).out = Except.ok none := by
    unfold thumbnail_media_controller
    have hcond : ¬(mf.metadata.origin = "advanced" ∧
        truthyStr mf.metadata.thumbnail_url = true) := by
      rintro ⟨h, -⟩
      rw [hporigin] at h
      exact absurd h (by decide)
    rw [if_neg hcond]
    simp only [Py.pure_bind]
    by_cases hmod : req.modifier = some "force_audio_only"
    · rw [if_pos hmod]
      rfl
    · rw [if_neg hmod]
      have hvid : ¬(mf.metadata.media_type = "video" ∧
          config.ffmpeg.enable_thumbnail_generation = true) := by
        rintro ⟨h, -⟩
        rw [hpmt] at h
        exact absurd h (by decide)
      rw [if_neg hvid]
      rfl
  have hty : truthyBytes (some data) = true := by simp [truthyBytes, hdata]
  have hprim : (primary_media_controller env config req.url req.platform_config
      req.ytdlp_metadata req.uuid req.modifier).out = Except.ok (some mf) := by
    unfold primary_media_controller
    rw [hpc, hmd]
    simp only [Bool.not_true, Bool.false_eq_true, if_neg, not_false_iff, Py.bind_out,
      hadv, hty, if_pos, Option.getD_some, hpost, hpamOut, Py.pure_out]
  unfold process_request
  refine ⟨mf, ?_, hporigin, hpsize, hpmd, hpms⟩
  simp only [Py.bind_out, hprim, hthumb, Py.pure_out]

/-- Witness for C1: Scenario B concretely — duration 99999, ceiling 600,
fallback enabled, two thumbnail bytes fetched. -/
theorem thumbnail_fallback_round_trip_witness :
    ∃ mf : MediaFile,
      (process_request envC1 cfgDur reqC1).out = Except.ok (some ⟨mf, none⟩) ∧
      mf.metadata.origin = "advanced-thumbnail-fallback" ∧
      mf.metadata.size = ([7, 7] : Bytes).length ∧
      mf.metadata.meta_duration = (mdDur 99999).duration ∧
      mf.metadata.meta_size = (mdDur 99999).filesize_approx :=
  thumbnail_fallback_round_trip envC1 cfgDur reqC1 (mdDur 99999)
    "https://img.example/t.jpg" "https://youtube.com/watch" "jpeg" [7, 7] ⟨320, 240, 0⟩
    rfl rfl rfl rfl (Or.inl (by decide)) rfl (by decide) rfl rfl (by decide) rfl rfl

end OrigamiMedia
